import Mathlib

/-!
# wget-warc: the WARC writer of `src/wget_warc.c`

A shallow embedding of the WARC writer (`warc_start_new_file`,
`warc_store_record`, `warc_init`, `warc_close` and the helpers they call),
followed by theorems about it.

Conventions of the embedding.

* The three file-scope statics and the fields of `opt` that the writer reads
  are the fields of `State`, and every C function is a function on `State`.
* The warctools objects live in the state as well: `State.files` holds every
  `WFile` that `bless` ever returned, and a `WFile` pointer is an index into
  that list (`none` is `NULL`).  A pointer is not cleared by `destroy`, exactly
  as in C, so it can dangle; `WFile.destroyed` counts the `destroy` calls.
* What the environment decides (whether `bless` returns an object, what
  `WFile_isFull` and `WFile_storeRecord` return, the generated UUID, the clock)
  is an explicit argument: `RotateOutcome`, `StoreOutcome`.
* C strings are `String`; `int` values are `Int`.  The serial number is a C
  `int`: its increment wraps around at `INT_MAX` (`int_incr`).
* A formatting function (`new_filename`, `tempfile_template`,
  `winfo_header_string`, `strftime_format`) gives the text that `sprintf` or
  `strftime` produces.  What the program goes on with is the buffer the text
  was written to (`new_filename_buffer`, `tempfile_buffer`,
  `winfo_header_buffer`, `strftime`): the text when it fits the buffer together
  with its terminating NUL, and no value (`none`) when it does not, since
  `sprintf` then writes past the end of the buffer, which is undefined
  behaviour.
-/

namespace WgetWarc

/-! ## Formatting helpers (`printf`, `strftime`, `basename`) -/

/-- The largest value of a C `int` (32 bits). -/
def INT_MAX : Int := 2147483647

/-- The smallest value of a C `int` (32 bits). -/
def INT_MIN : Int := -2147483648

/-- The statement `n++` on a C `int`: the sum modulo 2^32 in two's complement,
so `INT_MAX` is followed by `INT_MIN`. -/
def int_incr (n : Int) : Int :=
  (n + 1 + 2147483648) % 4294967296 - 2147483648

/-- The `printf` conversion `%0<w>d`: the decimal digits of `n`, preceded by a
minus sign when `n` is negative, zero-padded on the left up to a total width of
`w` characters (never truncated). -/
def fmt_0d (w : Nat) (n : Int) : String :=
  let digits := Nat.toDigits 10 n.natAbs
  if n < 0 then
    String.mk ('-' :: (List.replicate (w - 1 - digits.length) '0' ++ digits))
  else
    String.mk (List.replicate (w - digits.length) '0' ++ digits)

/-- The `printf` conversion `%d`. -/
def fmt_d (n : Int) : String := fmt_0d 0 n

/-- GNU `basename` (the one `<string.h>` declares under `_GNU_SOURCE`): the part
of the path after its last slash, the whole path when it has none. -/
def basename (path : String) : String :=
  String.mk (path.data.reverse.takeWhile (fun c => c != '/')).reverse

/-! ## Time stamps (`warc_timestamp`) -/

/-- The fields of `struct tm` that the format of `warc_timestamp` reads. -/
structure tm where
  tm_sec : Int
  tm_min : Int
  tm_hour : Int
  tm_mday : Int
  tm_mon : Int
  tm_year : Int
  deriving DecidableEq, Repr

/-- The expansion of the `strftime` format `%Y-%m-%dT%H:%M:%SZ`: `%Y` is the
year `tm_year + 1900` in decimal without padding, `%m` the month `tm_mon + 1`,
and `%m`, `%d`, `%H`, `%M`, `%S` are two-digit zero-padded numbers. -/
def strftime_format (t : tm) : String :=
  fmt_d (t.tm_year + 1900) ++ "-" ++ fmt_0d 2 (t.tm_mon + 1) ++ "-" ++ fmt_0d 2 t.tm_mday
    ++ "T" ++ fmt_0d 2 t.tm_hour ++ ":" ++ fmt_0d 2 t.tm_min ++ ":" ++ fmt_0d 2 t.tm_sec ++ "Z"

/-- The call `strftime (s, max, "%Y-%m-%dT%H:%M:%SZ", t)`: the expansion is
stored when it fits `max` bytes together with its terminating NUL; otherwise
the contents of the buffer are unspecified (`none`). -/
def strftime (max : Nat) (t : tm) : Option String :=
  if (strftime_format t).length + 1 ≤ max then some (strftime_format t) else none

/-- The function `warc_timestamp`, given the broken-down UTC time that `gmtime`
returned: it calls `strftime` with a limit of 21 bytes and ignores its result. -/
def warc_timestamp (timeinfo : tm) : Option String :=
  strftime 21 timeinfo

/-! ## Record identifiers (`warc_uuid_str`) -/

/-- A `uuid_t`: sixteen bytes. -/
abbrev uuid_t := { l : List (Fin 256) // l.length = 16 }

/-- Two lower-case hexadecimal digits per byte (`%02x`). -/
def hex_bytes (l : List (Fin 256)) : List Char :=
  l.flatMap (fun b => [Nat.digitChar (b.val / 16), Nat.digitChar (b.val % 16)])

/-- The function `uuid_unparse` of libuuid: the bytes in hexadecimal, in the
groups 4-2-2-2-6 separated by hyphens. -/
def uuid_unparse (u : uuid_t) : String :=
  String.mk (hex_bytes (u.val.take 4) ++ '-' :: hex_bytes ((u.val.drop 4).take 2)
    ++ '-' :: hex_bytes ((u.val.drop 6).take 2) ++ '-' :: hex_bytes ((u.val.drop 8).take 2)
    ++ '-' :: hex_bytes (u.val.drop 10))

/-- The size of the block `warc_start_new_file` allocates for the identifier
(line 146): `malloc (48)`. -/
def winfo_uuid_str_malloc : Nat := 48

/-- The function `warc_uuid_str`, given the UUID that `uuid_generate`
produced: `sprintf (urn_str, "<urn:uuid:%s>", uuid_str)`. -/
def warc_uuid_str (record_id : uuid_t) : String :=
  "<urn:uuid:" ++ uuid_unparse record_id ++ ">"

/-! ## Records and files of the warctools library -/

/-- Modelled from the spec: the record kinds of `warc_rec_t` (declared in the
warctools headers, which are not part of the sources): info, request,
response, metadata, resource, revisit and the remaining kinds of ISO 28500. -/
inductive warc_rec_t
  | WARC_UNKNOWN_RECORD
  | WARC_INFO_RECORD
  | WARC_RESPONSE_RECORD
  | WARC_REQUEST_RECORD
  | WARC_METADATA_RECORD
  | WARC_REVISIT_RECORD
  | WARC_CONVERSION_RECORD
  | WARC_CONTINUATION_RECORD
  | WARC_RESOURCE_RECORD
  deriving DecidableEq, Repr

/-- A `WRecord`: one field per setter that `wget_warc.c` wraps.  A field is
`none` until its setter is called; `date` is also `none` when the time stamp
buffer was left unspecified by `strftime`, and `content` and `filename` when
`sprintf` overran the buffer the text was formatted into. -/
structure WRecord where
  recordType : Option warc_rec_t
  targetUri : Option String
  contentType : Option String
  date : Option String
  recordId : Option String
  filename : Option String
  concurrentTo : Option String
  content : Option String
  warcInfoId : Option String
  deriving DecidableEq, Repr

/-- The call `bless (WRecord)`: a record with no field set. -/
def WRecord.bless : WRecord :=
  { recordType := none, targetUri := none, contentType := none, date := none,
    recordId := none, filename := none, concurrentTo := none, content := none,
    warcInfoId := none }

/-- The wrapper `warc_setRecordType`. -/
def warc_setRecordType (record : WRecord) (t : warc_rec_t) : WRecord :=
  { record with recordType := some t }

/-- The wrapper `warc_setContentType`. -/
def warc_setContentType (record : WRecord) (u8_string : String) : WRecord :=
  { record with contentType := some u8_string }

/-- The wrapper `warc_setDate`; the argument is the time stamp buffer. -/
def warc_setDate (record : WRecord) (u8_string : Option String) : WRecord :=
  { record with date := u8_string }

/-- The wrapper `warc_setRecordId`. -/
def warc_setRecordId (record : WRecord) (u8_string : String) : WRecord :=
  { record with recordId := some u8_string }

/-- The wrapper `warc_setFilename`; the argument is the base name taken from
the file name buffer. -/
def warc_setFilename (record : WRecord) (u8_string : Option String) : WRecord :=
  { record with filename := u8_string }

/-- The wrapper `warc_setContentFromString`; the argument is the buffer the
text was formatted into. -/
def warc_setContentFromString (record : WRecord) (u8_string : Option String) : WRecord :=
  { record with content := u8_string }

/-- The wrapper `warc_setWarcInfoId`; the argument is the pointer
`warc_current_winfo_uuid_str`, read when the call is made. -/
def warc_setWarcInfoId (record : WRecord) (u8_string : Option String) : WRecord :=
  { record with warcInfoId := u8_string }

/-- A `WFile` object.  `name`, `maxsize` and `compressed` are the arguments of
the `bless` call that made it, `records` the records that `WFile_storeRecord`
stored without error, in order, and `destroyed` the number of `destroy` calls
on it.  `name` is the file name buffer: `none` when `sprintf` overran it.
Three fields are bookkeeping of the embedding, not part of the library
object: `filename` is the text `sprintf` formatted for the name (whether it
fitted the buffer or not), `serial` the value of `warc_current_file_number`
and `winfo` the warcinfo record that `warc_start_new_file` built when it
opened this file. -/
structure WFile where
  filename : String
  name : Option String
  maxsize : Int
  compressed : Bool
  records : List WRecord
  destroyed : Nat
  serial : Int
  winfo : WRecord
  deriving DecidableEq, Repr

/-! ## The writer state -/

/-- The state the writer reads and writes: the fields of `opt` it uses, the
external strings, the statics of `wget_warc.c`, and the library objects. -/
structure State where
  /-- Field `opt.warc_filename` (`none` is `NULL`). -/
  warc_filename : Option String
  /-- Field `opt.warc_maxsize`. -/
  warc_maxsize : Int
  /-- Field `opt.warc_compression_enabled`. -/
  warc_compression_enabled : Bool
  /-- Field `opt.use_robots`. -/
  use_robots : Bool
  /-- Field `opt.warc_tempdir` (`none` is `NULL`). -/
  warc_tempdir : Option String
  /-- The global `version_string`. -/
  version_string : String
  /-- The configuration constant `OS_TYPE`. -/
  os_type : String
  /-- The global `program_argstring`. -/
  program_argstring : String
  /-- The static `warc_current_wfile`: a handle into `files`, or `NULL`. -/
  warc_current_wfile : Option Nat
  /-- The static `warc_current_winfo_uuid_str`, with the contents of the block
  it points to, or `NULL`. -/
  warc_current_winfo_uuid_str : Option String
  /-- The static `warc_current_file_number`. -/
  warc_current_file_number : Int
  /-- Every `WFile` that `bless` returned so far; the handle is the index. -/
  files : List WFile
  /-- The contents of the blocks passed to `free`, latest first. -/
  freed : List String
  deriving DecidableEq, Repr

/-- What the environment decides during one `warc_start_new_file`. -/
structure RotateOutcome where
  /-- Whether `bless (WFile, ...)` returns an object (`false`: `NULL`). -/
  open_ok : Bool
  /-- The UUID that `uuid_generate` produces. -/
  uuid : uuid_t
  /-- The UTC time that `gmtime (time ())` returns. -/
  now : tm
  /-- The result of `WFile_storeRecord` on the warcinfo record (`true`: error). -/
  info_write_fails : Bool
  deriving DecidableEq

/-- What the environment decides during one `warc_store_record`. -/
structure StoreOutcome where
  /-- Whether the accumulated size of the current file has reached its
  threshold: what `WFile_isFull` reports for a file with a positive max size. -/
  is_full : Bool
  /-- The outcomes of the `warc_start_new_file` this call makes, if it does. -/
  rot : RotateOutcome
  /-- The result of `WFile_storeRecord` on the record (`true`: error). -/
  write_fails : Bool
  deriving DecidableEq

/-! ## Library calls -/

/-- The call `destroy (p)` on a `WFile` handle: the object is finalized; the
caller keeps its pointer. -/
def destroy (h : Nat) (s : State) : State :=
  { s with files := List.modify (fun f => { f with destroyed := f.destroyed + 1 }) h s.files }

/-- The call `free (p)` on a block with contents `u`. -/
def free (u : String) (s : State) : State :=
  { s with freed := u :: s.freed }

/-- The call `bless (WFile, filename, maxsize, WARC_FILE_WRITER, compression, ".")`
on the file name buffer `name`: `NULL` when the environment refuses, a handle
to a new empty file otherwise.  The arguments `filename`, `serial` and `winfo`
fill the bookkeeping fields of `WFile`. -/
def bless_WFile (open_ok : Bool) (name : Option String) (maxsize : Int) (compressed : Bool)
    (filename : String) (serial : Int) (winfo : WRecord) (s : State) : Option Nat × State :=
  if open_ok then
    (some s.files.length,
      { s with files := s.files ++ [{ filename := filename, name := name,
                                      maxsize := maxsize, compressed := compressed,
                                      records := [], destroyed := 0, serial := serial,
                                      winfo := winfo }] })
  else (none, s)

/-- Modelled from the spec: the call `WFile_isFull (wfile)` of the warctools
library, whose code is not part of the sources.  The specification gives a
file a configured max size where 0 means unbounded, never rotating by size,
and rotates when max-size rotation is enabled and the accumulated size has
reached the threshold: a file blessed with a max size that is not positive
never reports full, and for a file with a positive max size the environment
decides whether the accumulated size has reached it (`is_full`).  For a
pointer that names no file object the environment decides as well. -/
def WFile_isFull (is_full : Bool) (wfile : Nat) (s : State) : Bool :=
  match s.files[wfile]? with
  | some f => decide (0 < f.maxsize) && is_full
  | none => is_full

/-- The call `WFile_storeRecord (wfile, record)`, which returns `true` on
error: when the environment reports an error nothing is recorded for the
file (bytes of a partly written record are not tracked), otherwise the record
is appended to the records of the file. -/
def WFile_storeRecord (fails : Bool) (wfile : Nat) (record : WRecord) (s : State) :
    Bool × State :=
  if fails then (true, s)
  else (false,
    { s with files := List.modify (fun f => { f with records := f.records ++ [record] })
                        wfile s.files })

/-! ## The functions of `wget_warc.c` -/

/-- The file name that `warc_start_new_file` formats (lines 123-133):
`"%s-%05d.%s"` when `opt.warc_maxsize > 0`, `"%s.%s"` otherwise, with the
extension `"warc.gz"` or `"warc"`.  This is the text `sprintf` produces; the
bytes reserved for it are `new_filename_alloca`, and the buffer it is written
to is `new_filename_buffer`. -/
def new_filename (warc_filename : String) (warc_maxsize : Int)
    (warc_compression_enabled : Bool) (warc_current_file_number : Int) : String :=
  let extension := if warc_compression_enabled then "warc.gz" else "warc"
  if warc_maxsize > 0 then
    warc_filename ++ "-" ++ fmt_0d 5 warc_current_file_number ++ "." ++ extension
  else
    warc_filename ++ "." ++ extension

/-- The size of the buffer that `warc_start_new_file` reserves for the file
name (line 125): `alloca (base_filename_length + 1 + 5 + 8 + 1)`. -/
def new_filename_alloca (warc_filename : String) : Nat :=
  warc_filename.length + 1 + 5 + 8 + 1

/-- The buffer `new_filename` after the `sprintf` of line 131 or 133: the text
when it fits the bytes of `new_filename_alloca` together with its terminating
NUL; otherwise `sprintf` writes past the end of the buffer, which is undefined
behaviour, and the embedding defines no name (`none`). -/
def new_filename_buffer (warc_filename : String) (warc_maxsize : Int)
    (warc_compression_enabled : Bool) (warc_current_file_number : Int) : Option String :=
  if (new_filename warc_filename warc_maxsize warc_compression_enabled
        warc_current_file_number).length + 1 ≤ new_filename_alloca warc_filename then
    some (new_filename warc_filename warc_maxsize warc_compression_enabled
      warc_current_file_number)
  else none

/-- The text that `warc_start_new_file` formats into `winfo_header_string`
(line 164). -/
def winfo_header_string (version_string os_type : String) (use_robots : Bool)
    (program_argstring : String) : String :=
  "software: Wget/" ++ version_string ++ " (" ++ os_type ++ ")\r\nformat: WARC File Format 1.0\r\nconformsTo: http://bibnum.bnf.fr/WARC/WARC_ISO_28500_version1_latestdraft.pdf\r\nrobots: "
    ++ (if use_robots then "classic" else "off") ++ "\r\nwget-arguments: "
    ++ program_argstring ++ "\r\n\r\n"

/-- The array `char winfo_header_string [400]` after the `sprintf` of line 164:
the text when it fits the 400 bytes together with its terminating NUL;
otherwise `sprintf` writes past the end of the array, which is undefined
behaviour, and the embedding defines no content (`none`). -/
def winfo_header_buffer (version_string os_type : String) (use_robots : Bool)
    (program_argstring : String) : Option String :=
  if (winfo_header_string version_string os_type use_robots program_argstring).length + 1
      ≤ 400 then
    some (winfo_header_string version_string os_type use_robots program_argstring)
  else none

/-- The warcinfo record that `warc_start_new_file` builds (lines 152-165) for
the file name buffer `new_filename`, the identifier `uuid_str` and the time
stamp buffer `timestamp`. -/
def infoWRecord (version_string os_type : String) (use_robots : Bool)
    (program_argstring : String) (new_filename : Option String) (uuid_str : String)
    (timestamp : Option String) : WRecord :=
  let r := WRecord.bless
  let r := warc_setRecordType r warc_rec_t.WARC_INFO_RECORD
  let r := warc_setContentType r "application/warc-fields"
  let r := warc_setDate r timestamp
  let r := warc_setRecordId r uuid_str
  let r := warc_setFilename r (new_filename.map basename)
  warc_setContentFromString r
    (winfo_header_buffer version_string os_type use_robots program_argstring)

/-- The function `warc_start_new_file`: returns `true` on success. -/
def warc_start_new_file (o : RotateOutcome) (s : State) : Bool × State :=
  match s.warc_filename with
  | none => (false, s)
  | some base =>
    let s1 := match s.warc_current_wfile with
      | some h => destroy h s
      | none => s
    let s2 := match s1.warc_current_winfo_uuid_str with
      | some u => free u s1
      | none => s1
    let s3 := { s2 with warc_current_file_number := int_incr s2.warc_current_file_number }
    let name := new_filename_buffer base s3.warc_maxsize s3.warc_compression_enabled
      s3.warc_current_file_number
    let uuid_str := warc_uuid_str o.uuid
    let info := infoWRecord s3.version_string s3.os_type s3.use_robots s3.program_argstring
      name uuid_str (warc_timestamp o.now)
    match bless_WFile o.open_ok name s3.warc_maxsize s3.warc_compression_enabled
        (new_filename base s3.warc_maxsize s3.warc_compression_enabled
          s3.warc_current_file_number)
        s3.warc_current_file_number info s3 with
    | (none, s4) => (false, { s4 with warc_current_wfile := none })
    | (some h, s4) =>
      let s5 := { s4 with warc_current_wfile := some h,
                          warc_current_winfo_uuid_str := some uuid_str }
      match WFile_storeRecord o.info_write_fails h info s5 with
      | (true, s6) => (false, s6)
      | (false, s6) => (true, s6)

/-- The function `warc_store_record`.  The record is passed by pointer and
stamped in place, so the embedding returns it next to the result: the flag
(`true` on success), the record as the call leaves it, and the new state.
The pointer `warc_current_wfile` is read again after the rotation; the branch
for `NULL` there is never taken, since a rotation that returns `true` leaves a
file current (`rotate_open_ok`). -/
def warc_store_record (record : WRecord) (o : StoreOutcome) (s : State) :
    Bool × WRecord × State :=
  match s.warc_current_wfile with
  | some h =>
    let (rotated_ok, s1) :=
      if WFile_isFull o.is_full h s then warc_start_new_file o.rot s else (true, s)
    if !rotated_ok then (false, record, s1)
    else
      let record1 := warc_setWarcInfoId record s1.warc_current_winfo_uuid_str
      match s1.warc_current_wfile with
      | some h1 =>
        match WFile_storeRecord o.write_fails h1 record1 s1 with
        | (true, s2) => (false, record1, s2)
        | (false, s2) => (true, record1, s2)
      | none => (false, record1, s1)
  | none => (false, record, s)

/-- The function `warc_init`. -/
def warc_init (o : RotateOutcome) (s : State) : State :=
  match s.warc_filename with
  | some _ =>
    let s1 := { s with warc_current_file_number := -1 }
    let r := warc_start_new_file o s1
    if !r.1 then { r.2 with warc_filename := none } else r.2
  | none => s

/-- The function `warc_close`. -/
def warc_close (s : State) : State :=
  match s.warc_current_wfile with
  | some h =>
    let s1 := match s.warc_current_winfo_uuid_str with
      | some u => free u s
      | none => s
    destroy h s1
  | none => s

/-! ## Scratch files (`warc_tempfile`) -/

/-- The part of the file system `warc_tempfile` acts on: the path names that
have a directory entry. -/
structure FileSystem where
  entries : List String
  deriving DecidableEq, Repr

/-- What the environment decides during one `warc_tempfile`. -/
structure TempOutcome where
  /-- The result of `mkstemp`: the six characters put in place of `XXXXXX` and
  the descriptor of the file created, or `none` when it fails (`-1`). -/
  created : Option (String × Nat)
  /-- Whether `unlink` succeeds (`false`: it returns `-1`). -/
  unlink_ok : Bool
  /-- Whether `fdopen` returns a stream (`false`: `NULL`). -/
  fdopen_ok : Bool
  deriving DecidableEq, Repr

/-- The size of the buffer `warc_tempfile` reserves for the path template
(line 257): `alloca (dirlen + 18)`. -/
def tempfile_alloca (warc_tempdir : String) : Nat := warc_tempdir.length + 18

/-- The path template `warc_tempfile` formats (line 258):
`sprintf (filename, "%s/.wget_warc_XXXXXX", opt.warc_tempdir)`. -/
def tempfile_template (warc_tempdir : String) : String :=
  warc_tempdir ++ "/.wget_warc_XXXXXX"

/-- The buffer `filename` after the `sprintf` of line 258: the template when it
fits the bytes of `tempfile_alloca` together with its terminating NUL;
otherwise `sprintf` writes past the end of the buffer, which is undefined
behaviour, and the embedding defines no template (`none`). -/
def tempfile_buffer (warc_tempdir : String) : Option String :=
  if (tempfile_template warc_tempdir).length + 1 ≤ tempfile_alloca warc_tempdir then
    some (tempfile_template warc_tempdir)
  else none

/-- The call `mkstemp (filename)`: on success the last six characters of the
template are replaced, the file of that name is created and its descriptor is
returned; on failure the result is `-1` and nothing is created. -/
def mkstemp (o : TempOutcome) (template : String) (fs : FileSystem) :
    Int × String × FileSystem :=
  match o.created with
  | some (suffix, fd) =>
    let name := String.mk (template.data.take (template.length - 6)) ++ suffix
    ((fd : Int), name, { fs with entries := name :: fs.entries })
  | none => (-1, template, fs)

/-- The call `unlink (filename)`: on success the directory entry is removed and
the result is `0`; on failure the result is `-1` and the entry stays. -/
def unlink (o : TempOutcome) (filename : String) (fs : FileSystem) : Int × FileSystem :=
  if o.unlink_ok then
    (0, { fs with entries := fs.entries.filter (fun e => e != filename) })
  else (-1, fs)

/-- The call `fdopen (fd, "wb+")`: a stream on the descriptor, or `NULL`.  A
stream is identified by its descriptor. -/
def fdopen (o : TempOutcome) (fd : Int) : Option Int :=
  if o.fdopen_ok then some fd else none

/-- Lines 260-267 of `warc_tempfile`, from a template `filename` that is in
its buffer: the stream returned (`none` is `NULL`) and the file system left. -/
def tempfile_from_template (o : TempOutcome) (filename : String) (fs : FileSystem) :
    Option Int × FileSystem :=
  let (fd, filename1, fs1) := mkstemp o filename fs
  if fd < 0 then (none, fs1)
  else
    let (r, fs2) := unlink o filename1 fs1
    if r < 0 then (none, fs2)
    else (fdopen o fd, fs2)

/-- The function `warc_tempfile`: the stream it returns (`none` is `NULL`) and
the file system it leaves.  The result as a whole is `none` when the behaviour
is undefined because `sprintf` overran the template buffer. -/
def warc_tempfile (o : TempOutcome) (s : State) (fs : FileSystem) :
    Option (Option Int × FileSystem) :=
  match s.warc_tempdir with
  | none => some (none, fs)
  | some warc_tempdir =>
    match tempfile_buffer warc_tempdir with
    | some filename => some (tempfile_from_template o filename fs)
    | none => none

/-! ## Runs -/

/-- The configuration the program starts with. -/
structure Config where
  warc_filename : Option String
  warc_maxsize : Int
  warc_compression_enabled : Bool
  use_robots : Bool
  warc_tempdir : Option String
  version_string : String
  os_type : String
  program_argstring : String
  deriving DecidableEq, Repr

/-- The state at program start: the statics are zero-initialised and no
library object exists. -/
def State.start (c : Config) : State :=
  { warc_filename := c.warc_filename, warc_maxsize := c.warc_maxsize,
    warc_compression_enabled := c.warc_compression_enabled, use_robots := c.use_robots,
    warc_tempdir := c.warc_tempdir, version_string := c.version_string,
    os_type := c.os_type, program_argstring := c.program_argstring,
    warc_current_wfile := none, warc_current_winfo_uuid_str := none,
    warc_current_file_number := 0, files := [], freed := [] }

/-- The state after a sequence of `warc_store_record` calls, each with its
record and the outcomes the environment chose for it. -/
def store_all (s : State) : List (WRecord × StoreOutcome) → State
  | [] => s
  | (r, o) :: rest => store_all (warc_store_record r o s).2.2 rest

/-- A call of the public interface of the writer. -/
inductive Call
  | init (o : RotateOutcome)
  | store (record : WRecord) (o : StoreOutcome)
  | close
  deriving DecidableEq

/-- The effect of one call on the state. -/
def Call.run (s : State) : Call → State
  | Call.init o => warc_init o s
  | Call.store r o => (warc_store_record r o s).2.2
  | Call.close => warc_close s

/-- The state after a sequence of calls. -/
def run_calls (s : State) (calls : List Call) : State :=
  calls.foldl Call.run s

/-! ## Auxiliary definitions for the proofs -/

/-- The state after lines 116-121 of `warc_start_new_file`: the current file,
if any, is destroyed, the current identifier, if any, is freed, and the serial
number is incremented (as an `int`).  Both pointers keep their values. -/
def released (s : State) : State :=
  { s with
    files := match s.warc_current_wfile with
      | some h => List.modify (fun f => { f with destroyed := f.destroyed + 1 }) h s.files
      | none => s.files
    freed := match s.warc_current_winfo_uuid_str with
      | some u => u :: s.freed
      | none => s.freed
    warc_current_file_number := int_incr s.warc_current_file_number }

/-- The warcinfo record that `warc_start_new_file` builds in state `s` for the
base name `b` under the outcomes `o`. -/
def rotate_winfo (s : State) (b : String) (o : RotateOutcome) : WRecord :=
  infoWRecord s.version_string s.os_type s.use_robots s.program_argstring
    (new_filename_buffer b s.warc_maxsize s.warc_compression_enabled
      (int_incr s.warc_current_file_number))
    (warc_uuid_str o.uuid) (warc_timestamp o.now)

/-- The file object that a successful `bless` in `warc_start_new_file` adds,
with the records it holds when `warc_start_new_file` returns. -/
def rotate_file (s : State) (b : String) (o : RotateOutcome) : WFile :=
  { filename := new_filename b s.warc_maxsize s.warc_compression_enabled
      (int_incr s.warc_current_file_number)
    name := new_filename_buffer b s.warc_maxsize s.warc_compression_enabled
      (int_incr s.warc_current_file_number)
    maxsize := s.warc_maxsize
    compressed := s.warc_compression_enabled
    records := if o.info_write_fails then [] else [rotate_winfo s b o]
    destroyed := 0
    serial := int_incr s.warc_current_file_number
    winfo := rotate_winfo s b o }

/-- Lines 200-210 of `warc_store_record` in state `s1`: the record is stamped
with the current identifier and passed to `WFile_storeRecord`. -/
def stamp_and_store (record : WRecord) (write_fails : Bool) (s1 : State) :
    Bool × WRecord × State :=
  let record1 := warc_setWarcInfoId record s1.warc_current_winfo_uuid_str
  match s1.warc_current_wfile with
  | some h1 =>
    if write_fails then (false, record1, s1)
    else (true, record1,
      { s1 with files := List.modify (fun f => { f with records := f.records ++ [record1] })
                           h1 s1.files })
  | none => (false, record1, s1)

/-- The texts formatted for the names of the files opened so far, in the
order of opening. -/
def filenames (s : State) : List String := s.files.map WFile.filename

/-- The file name buffers the files opened so far were blessed with, in the
order of opening. -/
def names (s : State) : List (Option String) := s.files.map WFile.name

/-- The records of the files opened so far, file by file. -/
def record_lists (s : State) : List (List WRecord) := s.files.map WFile.records

/-- The warcinfo record built for the file is its first record and every
other record of the file carries that record's identifier as linkage id. -/
def InfoFirst (f : WFile) : Prop :=
  f.records.head? = some f.winfo ∧ ∀ r ∈ f.records.tail, r.warcInfoId = f.winfo.recordId

/-- Every file opened so far has its warcinfo record first, and the identifier
the writer holds is that of the current file. -/
def LinkInv (s : State) : Prop :=
  (∀ f ∈ s.files, InfoFirst f ∧ f.winfo.recordType = some warc_rec_t.WARC_INFO_RECORD) ∧
  (∀ h, s.warc_current_wfile = some h →
    ∃ f, s.files[h]? = some f ∧ s.warc_current_winfo_uuid_str = f.winfo.recordId)

/-- The members of a `struct tm` are in the ranges the C standard gives for a
broken-down time (seconds up to 60 for a leap second). -/
def tm_in_range (t : tm) : Prop :=
  0 ≤ t.tm_sec ∧ t.tm_sec ≤ 60 ∧ 0 ≤ t.tm_min ∧ t.tm_min ≤ 59 ∧
  0 ≤ t.tm_hour ∧ t.tm_hour ≤ 23 ∧ 1 ≤ t.tm_mday ∧ t.tm_mday ≤ 31 ∧
  0 ≤ t.tm_mon ∧ t.tm_mon ≤ 11

/-! ## The file name in the words of the specification -/

/-- The serial number as the specification writes it: the number in decimal,
zero-padded to five digits. -/
def spec_serial (n : Nat) : String :=
  String.mk (List.replicate (5 - (toString n).length) '0') ++ toString n

/-- The file name as the specification writes it: the base, then the serial
suffix when max-size rotation is enabled, then the extension. -/
def spec_filename (b : String) (n : Nat) (m : Int) (c : Bool) : String :=
  b ++ (if m > 0 then "-" ++ spec_serial n else "") ++ (if c then ".warc.gz" else ".warc")

/-! ## Concrete inputs -/

/-- A configuration without rotation: base `crawl`, max size 0, no compression. -/
def cfg_crawl : Config :=
  { warc_filename := some "crawl", warc_maxsize := 0, warc_compression_enabled := false,
    use_robots := true, warc_tempdir := none, version_string := "1.13",
    os_type := "linux-gnu", program_argstring := "-r http://example.org/" }

/-- A configuration with rotation: base `crawl`, max size 1000, compression. -/
def cfg_rotating : Config :=
  { cfg_crawl with warc_maxsize := 1000, warc_compression_enabled := true }

/-- A configuration whose session argument string has 400 characters. -/
def cfg_long_args : Config :=
  { cfg_crawl with program_argstring := String.mk (List.replicate 400 'a') }

/-- A UUID: sixteen bytes `0x00`. -/
def uuid_zero : uuid_t := ⟨List.replicate 16 0, rfl⟩

/-- Another UUID: sixteen bytes `0xff`. -/
def uuid_ones : uuid_t := ⟨List.replicate 16 255, rfl⟩

/-- A clock value: 2011-01-02 03:04:05 UTC. -/
def clock_2011 : tm :=
  { tm_sec := 5, tm_min := 4, tm_hour := 3, tm_mday := 2, tm_mon := 0, tm_year := 111 }

/-- A clock value in the year 10000: 10000-01-02 03:04:05 UTC. -/
def clock_10000 : tm := { clock_2011 with tm_year := 8100 }

/-- Outcomes of a rotation in which everything succeeds. -/
def rot_ok : RotateOutcome :=
  { open_ok := true, uuid := uuid_zero, now := clock_2011, info_write_fails := false }

/-- Outcomes of a rotation in which the file cannot be opened. -/
def rot_open_fails : RotateOutcome := { rot_ok with open_ok := false }

/-- Outcomes of a rotation in which the file opens and the write of the
warcinfo record fails. -/
def rot_info_fails : RotateOutcome := { rot_ok with info_write_fails := true }

/-- A response record as a producer submits it, with a linkage id of its own. -/
def rec_response : WRecord :=
  { WRecord.bless with
    recordType := some warc_rec_t.WARC_RESPONSE_RECORD
    targetUri := some "http://example.org/"
    recordId := some "<urn:uuid:11111111-1111-1111-1111-111111111111>"
    warcInfoId := some "<urn:uuid:stale>" }

/-- Outcomes of a store on a file that is not full, the write succeeding. -/
def store_ok : StoreOutcome := { is_full := false, rot := rot_ok, write_fails := false }

/-- Outcomes of a store on a file that is not full, the write failing. -/
def store_write_fails : StoreOutcome := { store_ok with write_fails := true }

/-- Outcomes of a store on a full file: the rotation gets the UUID `uuid_ones`
and succeeds, and so does the write. -/
def store_rotating : StoreOutcome :=
  { is_full := true, rot := { rot_ok with uuid := uuid_ones }, write_fails := false }

/-- A state whose temp directory is `/tmp`. -/
def state_tmp : State := { State.start cfg_crawl with warc_tempdir := some "/tmp" }

/-- A file system with one entry in `/tmp`. -/
def fs_tmp : FileSystem := { entries := ["/tmp/other"] }

/-- Outcomes of a `warc_tempfile` in which everything succeeds: the file
`/tmp/.wget_warc_aB3dE9` is created on descriptor 5. -/
def temp_ok : TempOutcome := { created := some ("aB3dE9", 5), unlink_ok := true, fdopen_ok := true }

/-! ## Lists -/

theorem map_modify_of_proj {α β : Type} (g : α → β) (f : α → α) (hf : ∀ x, g (f x) = g x)
    (n : Nat) (l : List α) : (List.modify f n l).map g = l.map g := by
  induction l generalizing n with
  | nil => simp
  | cons a l ih =>
    cases n with
    | zero => simp [hf]
    | succ n => simp [ih]

theorem modify_append_last {α : Type} (f : α → α) (l : List α) (x : α) (n : Nat)
    (hn : l.length = n) : List.modify f n (l ++ [x]) = l ++ [f x] := by
  subst hn
  induction l with
  | nil => simp
  | cons a l ih => simp [ih]

theorem mem_modify {α : Type} (g : α → α) (n : Nat) (l : List α) (x : α)
    (hx : x ∈ List.modify g n l) : x ∈ l ∨ ∃ y, l[n]? = some y ∧ x = g y := by
  induction l generalizing n with
  | nil => simp at hx
  | cons a l ih =>
    cases n with
    | zero =>
      simp only [List.modify_zero_cons, List.mem_cons] at hx
      rcases hx with hx | hx
      · exact Or.inr ⟨a, by simp, hx⟩
      · exact Or.inl (by simp [hx])
    | succ n =>
      simp only [List.modify_succ_cons, List.mem_cons] at hx
      rcases hx with hx | hx
      · exact Or.inl (by simp [hx])
      · rcases ih n hx with h | ⟨y, hy, hxy⟩
        · exact Or.inl (by simp [h])
        · exact Or.inr ⟨y, by simpa using hy, hxy⟩

theorem fmt_0d_natCast (w n : Nat) :
    fmt_0d w (n : Int) =
      String.mk (List.replicate (w - (Nat.toDigits 10 n).length) '0' ++ Nat.toDigits 10 n) := by
  unfold fmt_0d
  have h : ¬ ((n : Int) < 0) := by omega
  simp only [h, if_false, Int.natAbs_ofNat]

theorem fmt_0d_eq_spec_serial (n : Nat) : fmt_0d 5 (n : Int) = spec_serial n := by
  rw [fmt_0d_natCast]
  unfold spec_serial
  show _ = String.mk _ ++ Nat.repr n
  unfold Nat.repr List.asString
  rfl

theorem new_filename_eq_spec (b : String) (n : Nat) (m : Int) (c : Bool) :
    new_filename b m c (n : Int) = spec_filename b n m c := by
  unfold new_filename spec_filename
  rw [fmt_0d_eq_spec_serial]
  by_cases hm : m > 0 <;> cases c <;> simp [hm, String.append_assoc]

theorem new_filename_unbounded (b : String) (m : Int) (c : Bool) (n : Int) (hm : ¬ m > 0) :
    new_filename b m c n = b ++ (if c then ".warc.gz" else ".warc") := by
  unfold new_filename
  cases c <;> simp [hm, String.append_assoc]

theorem toDigits_length_le (n e : Nat) (he : 0 < e) (hn : n < 10 ^ e) :
    (Nat.toDigits 10 n).length ≤ e :=
  Nat.toDigitsCore_length 10 (by decide) (n + 1) n e hn he

/-- What holds of C8: a serial number from 0 to 99999 is rendered with exactly
five digits. -/
theorem serial_five_digits (n : Nat) (hn : n ≤ 99999) : (fmt_0d 5 (n : Int)).length = 5 := by
  rw [fmt_0d_natCast]
  have h := toDigits_length_le n 5 (by decide) (by omega)
  simp only [String.length, List.length_append, List.length_replicate]
  omega

/-- What holds of C2 and C19: for a serial number from 0 to 99999 the file
name with its terminating NUL fits the bytes reserved for it. -/
theorem new_filename_length_le (b : String) (c : Bool) (m : Int) (n : Int)
    (h0 : 0 ≤ n) (h1 : n ≤ 99999) :
    (new_filename b m c n).length + 1 ≤ new_filename_alloca b := by
  obtain ⟨k, rfl⟩ := Int.eq_ofNat_of_zero_le h0
  have h5 := serial_five_digits k (by omega)
  have e1 : "-".length = 1 := rfl
  have e2 : ".".length = 1 := rfl
  have e3 : "warc.gz".length = 7 := rfl
  have e4 : "warc".length = 4 := rfl
  unfold new_filename new_filename_alloca
  by_cases hm : m > 0 <;> cases c <;>
    simp only [hm, if_true, if_false, String.length_append, h5, Bool.false_eq_true,
      e1, e2, e3, e4] <;> omega

/-- What holds of C2: for every base path, max size and compression flag and
every serial number from 0 to 99999, the buffer passed to `bless` holds the
file name the specification writes. -/
theorem new_filename_buffer_in_range (b : String) (n : Nat) (m : Int) (c : Bool)
    (hn : n ≤ 99999) :
    new_filename_buffer b m c (n : Int) = some (spec_filename b n m c) := by
  unfold new_filename_buffer
  rw [if_pos (new_filename_length_le b c m n (by omega) (by omega)), new_filename_eq_spec]

/-- Without max-size rotation the file name has no serial and always fits. -/
theorem new_filename_buffer_unbounded (b : String) (m : Int) (c : Bool) (n : Int)
    (hm : ¬ m > 0) :
    new_filename_buffer b m c n = some (b ++ (if c then ".warc.gz" else ".warc")) := by
  have e1 : ".".length = 1 := rfl
  have e3 : "warc.gz".length = 7 := rfl
  have e4 : "warc".length = 4 := rfl
  have hl : (new_filename b m c n).length + 1 ≤ new_filename_alloca b := by
    unfold new_filename new_filename_alloca
    cases c <;>
      simp only [hm, if_true, if_false, String.length_append, Bool.false_eq_true,
        e1, e3, e4] <;> omega
  unfold new_filename_buffer
  rw [if_pos hl, new_filename_unbounded b m c n hm]

/-- With max-size rotation and compression, the name of the file numbered
100000 needs one byte more than the bytes reserved for it, whatever the base
path is. -/
theorem new_filename_buffer_overrun (b : String) :
    (new_filename b 1000 true 100000).length + 1 = new_filename_alloca b + 1 ∧
    new_filename_buffer b 1000 true 100000 = none := by
  have e0 : fmt_0d 5 100000 = "100000" := by decide
  have e1 : "-".length = 1 := rfl
  have e2 : ".".length = 1 := rfl
  have e3 : "warc.gz".length = 7 := rfl
  have e5 : "100000".length = 6 := rfl
  have hm : (1000 : Int) > 0 := by decide
  have hl : (new_filename b 1000 true 100000).length = new_filename_alloca b := by
    unfold new_filename new_filename_alloca
    simp only [hm, if_true, String.length_append, e0, e1, e2, e3, e5]
  refine ⟨by omega, ?_⟩
  unfold new_filename_buffer
  rw [if_neg (by omega)]

theorem digitChar_injective_16 : ∀ i j : Fin 16,
    Nat.digitChar i.val = Nat.digitChar j.val → i = j := by decide

theorem digitChar_ne_hyphen_16 : ∀ i : Fin 16, Nat.digitChar i.val ≠ '-' := by decide

theorem hex_bytes_cons (b : Fin 256) (l : List (Fin 256)) :
    hex_bytes (b :: l)
      = Nat.digitChar (b.val / 16) :: Nat.digitChar (b.val % 16) :: hex_bytes l := by
  simp [hex_bytes]

theorem hex_bytes_append (l1 l2 : List (Fin 256)) :
    hex_bytes (l1 ++ l2) = hex_bytes l1 ++ hex_bytes l2 := by
  simp [hex_bytes]

theorem hex_bytes_length (l : List (Fin 256)) : (hex_bytes l).length = 2 * l.length := by
  induction l with
  | nil => rfl
  | cons b l ih => rw [hex_bytes_cons]; simp [ih]; omega

theorem hex_bytes_injective (l1 l2 : List (Fin 256)) (h : hex_bytes l1 = hex_bytes l2) :
    l1 = l2 := by
  induction l1 generalizing l2 with
  | nil =>
    cases l2 with
    | nil => rfl
    | cons b l => rw [hex_bytes_cons] at h; exact absurd h (by simp [hex_bytes])
  | cons a l1 ih =>
    cases l2 with
    | nil => rw [hex_bytes_cons] at h; exact absurd h (by simp [hex_bytes])
    | cons b l2 =>
      rw [hex_bytes_cons, hex_bytes_cons] at h
      simp only [List.cons.injEq] at h
      obtain ⟨hq, hr, hl⟩ := h
      have hq1 := digitChar_injective_16 ⟨a.val / 16, by omega⟩ ⟨b.val / 16, by omega⟩ hq
      have hr1 := digitChar_injective_16 ⟨a.val % 16, by omega⟩ ⟨b.val % 16, by omega⟩ hr
      simp only [Fin.mk.injEq] at hq1 hr1
      have hab : a = b := by
        apply Fin.ext
        omega
      rw [hab, ih l2 hl]

theorem hex_bytes_no_hyphen (l : List (Fin 256)) :
    (hex_bytes l).filter (fun c => c != '-') = hex_bytes l := by
  rw [List.filter_eq_self]
  intro c hc
  induction l with
  | nil => simp [hex_bytes] at hc
  | cons b l ih =>
    rw [hex_bytes_cons] at hc
    simp only [List.mem_cons] at hc
    rcases hc with hc | hc | hc
    · have := digitChar_ne_hyphen_16 ⟨b.val / 16, by omega⟩
      simp [hc, this]
    · have := digitChar_ne_hyphen_16 ⟨b.val % 16, by omega⟩
      simp [hc, this]
    · exact ih hc

theorem uuid_groups (l : List (Fin 256)) :
    l.take 4 ++ ((l.drop 4).take 2 ++ ((l.drop 6).take 2 ++ ((l.drop 8).take 2 ++ l.drop 10)))
      = l := by
  have h1 : l.drop 10 = (l.drop 8).drop 2 := by simp
  have h2 : l.drop 8 = (l.drop 6).drop 2 := by simp
  have h3 : l.drop 6 = (l.drop 4).drop 2 := by simp
  rw [h1, List.take_append_drop, h2, List.take_append_drop, h3, List.take_append_drop,
    List.take_append_drop]

theorem uuid_unparse_without_hyphens (u : uuid_t) :
    (uuid_unparse u).data.filter (fun c => c != '-') = hex_bytes u.val := by
  unfold uuid_unparse
  simp only [List.filter_append, List.filter_cons, hex_bytes_no_hyphen]
  simp only [bne_self_eq_false, Bool.false_eq_true, if_false]
  rw [← hex_bytes_append, ← hex_bytes_append, ← hex_bytes_append, ← hex_bytes_append]
  simp only [List.append_assoc, uuid_groups]

theorem uuid_unparse_injective (u v : uuid_t) (h : uuid_unparse u = uuid_unparse v) : u = v := by
  apply Subtype.ext
  apply hex_bytes_injective
  rw [← uuid_unparse_without_hyphens, ← uuid_unparse_without_hyphens, h]

theorem warc_uuid_str_injective (u v : uuid_t) (h : warc_uuid_str u = warc_uuid_str v) :
    u = v := by
  apply uuid_unparse_injective
  unfold warc_uuid_str at h
  have h1 := congrArg String.data h
  simp only [String.data_append, List.append_assoc] at h1
  have h2 := List.append_cancel_right (List.append_cancel_left h1)
  exact String.ext h2

/-! ## The outcomes of `warc_start_new_file`, `warc_store_record` and `warc_init` -/

theorem int_incr_eq (n : Int) (h0 : -1 ≤ n) (h1 : n < INT_MAX) : int_incr n = n + 1 := by
  unfold int_incr
  unfold INT_MAX at h1
  omega

theorem int_incr_max : int_incr INT_MAX = INT_MIN := by decide

theorem isFull_false_of_flag (h : Nat) (s : State) :
    WFile_isFull false h s = false := by
  unfold WFile_isFull
  cases s.files[h]? <;> simp

theorem isFull_false_of_unbounded (flag : Bool) (h : Nat) (s : State) (f : WFile)
    (hf : s.files[h]? = some f) (hm : ¬ 0 < f.maxsize) :
    WFile_isFull flag h s = false := by
  unfold WFile_isFull
  simp [hf, hm]

theorem isFull_true_of_bounded (h : Nat) (s : State) (f : WFile)
    (hf : s.files[h]? = some f) (hm : 0 < f.maxsize) :
    WFile_isFull true h s = true := by
  unfold WFile_isFull
  simp [hf, hm]

theorem released_files_length (s : State) : (released s).files.length = s.files.length := by
  unfold released
  cases s.warc_current_wfile <;> simp

theorem rotate_no_filename (o : RotateOutcome) (s : State) (h : s.warc_filename = none) :
    warc_start_new_file o s = (false, s) := by
  simp [warc_start_new_file, h]

theorem rotate_open_fails (o : RotateOutcome) (s : State) (b : String)
    (h : s.warc_filename = some b) (ho : o.open_ok = false) :
    warc_start_new_file o s = (false, { released s with warc_current_wfile := none }) := by
  simp only [warc_start_new_file, h, bless_WFile, ho, destroy, free, released]
  cases hw : s.warc_current_wfile <;> cases hu : s.warc_current_winfo_uuid_str <;>
    simp [h, hw, hu]

theorem rotate_open_ok (o : RotateOutcome) (s : State) (b : String)
    (h : s.warc_filename = some b) (ho : o.open_ok = true) :
    warc_start_new_file o s =
      (!o.info_write_fails,
        { released s with
          warc_current_wfile := some s.files.length
          warc_current_winfo_uuid_str := some (warc_uuid_str o.uuid)
          files := (released s).files ++ [rotate_file s b o] }) := by
  simp only [warc_start_new_file, h, bless_WFile, ho, destroy, free, released, WFile_storeRecord,
    rotate_file, rotate_winfo]
  cases o.info_write_fails <;> cases hw : s.warc_current_wfile <;>
    cases hu : s.warc_current_winfo_uuid_str <;> simp [modify_append_last, h, hw, hu]

theorem rotate_ok_iff (o : RotateOutcome) (s : State) :
    (warc_start_new_file o s).1 = true ↔
      s.warc_filename ≠ none ∧ o.open_ok = true ∧ o.info_write_fails = false := by
  cases hb : s.warc_filename with
  | none => simp [rotate_no_filename o s hb]
  | some b =>
    cases ho : o.open_ok with
    | false => simp [rotate_open_fails o s b hb ho]
    | true => simp [rotate_open_ok o s b hb ho]

theorem rotate_config (o : RotateOutcome) (s : State) :
    (warc_start_new_file o s).2.warc_filename = s.warc_filename ∧
    (warc_start_new_file o s).2.warc_maxsize = s.warc_maxsize ∧
    (warc_start_new_file o s).2.warc_compression_enabled = s.warc_compression_enabled := by
  cases hb : s.warc_filename with
  | none => simp [rotate_no_filename o s hb, hb]
  | some b =>
    cases ho : o.open_ok with
    | false => simp [rotate_open_fails o s b hb ho, released, hb]
    | true => simp [rotate_open_ok o s b hb ho, released, hb]

theorem store_no_file (record : WRecord) (o : StoreOutcome) (s : State)
    (hw : s.warc_current_wfile = none) :
    warc_store_record record o s = (false, record, s) := by
  simp [warc_store_record, hw]

theorem store_not_full (record : WRecord) (o : StoreOutcome) (s : State) (h : Nat)
    (hw : s.warc_current_wfile = some h) (hf : WFile_isFull o.is_full h s = false) :
    warc_store_record record o s = stamp_and_store record o.write_fails s := by
  simp only [warc_store_record, hw, hf, stamp_and_store, WFile_storeRecord]
  cases o.write_fails <;> simp [hw]

theorem store_full (record : WRecord) (o : StoreOutcome) (s : State) (h : Nat)
    (hw : s.warc_current_wfile = some h) (hf : WFile_isFull o.is_full h s = true) :
    warc_store_record record o s =
      if (warc_start_new_file o.rot s).1 then
        stamp_and_store record o.write_fails (warc_start_new_file o.rot s).2
      else (false, record, (warc_start_new_file o.rot s).2) := by
  simp only [warc_store_record, hw, hf, stamp_and_store, WFile_storeRecord]
  rcases hr : warc_start_new_file o.rot s with ⟨ok, s1⟩
  cases ok <;> cases hw1 : s1.warc_current_wfile <;> cases o.write_fails <;> simp [hw1]

theorem store_rotated_eq (record : WRecord) (o : StoreOutcome) (s : State) (b : String)
    (h : Nat) (hb : s.warc_filename = some b) (hw : s.warc_current_wfile = some h)
    (hf : WFile_isFull o.is_full h s = true) (ho : o.rot.open_ok = true)
    (hi : o.rot.info_write_fails = false) :
    warc_store_record record o s =
      (!o.write_fails,
        { record with warcInfoId := some (warc_uuid_str o.rot.uuid) },
        { released s with
          warc_current_wfile := some s.files.length
          warc_current_winfo_uuid_str := some (warc_uuid_str o.rot.uuid)
          files := (released s).files ++
            [{ rotate_file s b o.rot with
               records := rotate_winfo s b o.rot ::
                 (if o.write_fails then []
                  else [{ record with warcInfoId := some (warc_uuid_str o.rot.uuid) }]) }] }) := by
  have hok := (rotate_ok_iff o.rot s).2 ⟨by rw [hb]; simp, ho, hi⟩
  rw [store_full record o s h hw hf, hok]
  simp only [if_true]
  rw [rotate_open_ok o.rot s b hb ho]
  have hl := released_files_length s
  cases hwf : o.write_fails <;>
    simp [stamp_and_store, hwf, warc_setWarcInfoId, modify_append_last, hl, rotate_file, hi]

theorem stamp_and_store_frame (record : WRecord) (w : Bool) (s : State) :
    (stamp_and_store record w s).2.2.files.length = s.files.length ∧
    (stamp_and_store record w s).2.2.warc_current_wfile = s.warc_current_wfile ∧
    (stamp_and_store record w s).2.2.warc_current_file_number = s.warc_current_file_number ∧
    (stamp_and_store record w s).2.2.warc_current_winfo_uuid_str
      = s.warc_current_winfo_uuid_str ∧
    (stamp_and_store record w s).2.2.warc_filename = s.warc_filename ∧
    (stamp_and_store record w s).2.2.warc_maxsize = s.warc_maxsize ∧
    (stamp_and_store record w s).2.2.warc_compression_enabled = s.warc_compression_enabled := by
  unfold stamp_and_store
  cases hw : s.warc_current_wfile <;> cases w <;> simp [hw]

theorem store_config (record : WRecord) (o : StoreOutcome) (s : State) :
    (warc_store_record record o s).2.2.warc_filename = s.warc_filename ∧
    (warc_store_record record o s).2.2.warc_maxsize = s.warc_maxsize ∧
    (warc_store_record record o s).2.2.warc_compression_enabled
      = s.warc_compression_enabled := by
  cases hw : s.warc_current_wfile with
  | none => rw [store_no_file record o s hw]; exact ⟨rfl, rfl, rfl⟩
  | some h =>
    cases hf : WFile_isFull o.is_full h s with
    | false =>
      rw [store_not_full record o s h hw hf]
      obtain ⟨-, -, -, -, h5, h6, h7⟩ := stamp_and_store_frame record o.write_fails s
      exact ⟨h5, h6, h7⟩
    | true =>
      rw [store_full record o s h hw hf]
      have hc := rotate_config o.rot s
      cases (warc_start_new_file o.rot s).1 with
      | false => exact hc
      | true =>
        obtain ⟨-, -, -, -, h5, h6, h7⟩ :=
          stamp_and_store_frame record o.write_fails (warc_start_new_file o.rot s).2
        simp only [if_true]
        rw [h5, h6, h7]
        exact hc

theorem init_no_filename (o : RotateOutcome) (s : State) (hb : s.warc_filename = none) :
    warc_init o s = s := by
  simp [warc_init, hb]

theorem init_rotate_ok (o : RotateOutcome) (s : State) (b : String)
    (hb : s.warc_filename = some b)
    (hr : (warc_start_new_file o { s with warc_current_file_number := -1 }).1 = true) :
    warc_init o s = (warc_start_new_file o { s with warc_current_file_number := -1 }).2 := by
  unfold warc_init
  split
  · simp only [hr, Bool.not_true, Bool.false_eq_true, if_false]
  · simp_all

theorem init_rotate_fails (o : RotateOutcome) (s : State) (b : String)
    (hb : s.warc_filename = some b)
    (hr : (warc_start_new_file o { s with warc_current_file_number := -1 }).1 = false) :
    warc_init o s =
      { (warc_start_new_file o { s with warc_current_file_number := -1 }).2 with
        warc_filename := none } := by
  unfold warc_init
  split
  · simp only [hr, Bool.not_false, if_true]
  · simp_all

theorem close_no_file (s : State) (hw : s.warc_current_wfile = none) : warc_close s = s := by
  simp [warc_close, hw]

theorem store_all_no_file (calls : List (WRecord × StoreOutcome)) (s : State)
    (hw : s.warc_current_wfile = none) : store_all s calls = s := by
  induction calls with
  | nil => rfl
  | cons a rest ih =>
    obtain ⟨r, o⟩ := a
    unfold store_all
    rw [store_no_file r o s hw]
    exact ih

/-! ## File names -/

theorem released_filenames (s : State) : filenames (released s) = filenames s := by
  unfold filenames released
  cases s.warc_current_wfile with
  | none => rfl
  | some h =>
    dsimp only
    exact map_modify_of_proj WFile.filename _ (by intro x; rfl) _ _

theorem stamp_and_store_filenames (record : WRecord) (w : Bool) (s : State) :
    filenames (stamp_and_store record w s).2.2 = filenames s := by
  unfold filenames stamp_and_store
  cases s.warc_current_wfile with
  | none => rfl
  | some h =>
    cases w
    · dsimp only
      exact map_modify_of_proj WFile.filename _ (by intro x; rfl) _ _
    · rfl

theorem rotate_filenames_ok (o : RotateOutcome) (s : State) (b : String)
    (hb : s.warc_filename = some b) (ho : o.open_ok = true) :
    filenames (warc_start_new_file o s).2 = filenames s ++
      [new_filename b s.warc_maxsize s.warc_compression_enabled
        (int_incr s.warc_current_file_number)] := by
  rw [rotate_open_ok o s b hb ho]
  have h1 := released_filenames s
  unfold filenames at *
  simp [h1, rotate_file]

theorem rotate_filenames_not_opened (o : RotateOutcome) (s : State)
    (h : s.warc_filename = none ∨ o.open_ok = false) :
    filenames (warc_start_new_file o s).2 = filenames s := by
  cases hb : s.warc_filename with
  | none => rw [rotate_no_filename o s hb]
  | some b =>
    have ho : o.open_ok = false := by
      rcases h with h | h
      · rw [hb] at h; exact absurd h (by simp)
      · exact h
    rw [rotate_open_fails o s b hb ho]
    exact released_filenames s

theorem store_never_rotates (record : WRecord) (o : StoreOutcome) (s : State)
    (hf : ∀ h, s.warc_current_wfile = some h → WFile_isFull o.is_full h s = false) :
    (warc_store_record record o s).2.2.files.length = s.files.length ∧
    (warc_store_record record o s).2.2.warc_current_wfile = s.warc_current_wfile ∧
    (warc_store_record record o s).2.2.warc_current_file_number = s.warc_current_file_number ∧
    (warc_store_record record o s).2.2.warc_current_winfo_uuid_str
      = s.warc_current_winfo_uuid_str ∧
    filenames (warc_store_record record o s).2.2 = filenames s := by
  cases hw : s.warc_current_wfile with
  | none => rw [store_no_file record o s hw]; simp [hw]
  | some h =>
    rw [store_not_full record o s h hw (hf h hw)]
    obtain ⟨h1, h2, h3, h4, -⟩ := stamp_and_store_frame record o.write_fails s
    exact ⟨h1, by rw [h2, hw], h3, h4, stamp_and_store_filenames record _ s⟩

theorem store_filenames (record : WRecord) (o : StoreOutcome) (s : State) (name : String)
    (hn : name ∈ filenames (warc_store_record record o s).2.2) :
    name ∈ filenames s ∨ ∃ b, s.warc_filename = some b ∧
      name = new_filename b s.warc_maxsize s.warc_compression_enabled
        (int_incr s.warc_current_file_number) := by
  cases hw : s.warc_current_wfile with
  | none => rw [store_no_file record o s hw] at hn; exact Or.inl hn
  | some h =>
    cases hf : WFile_isFull o.is_full h s with
    | false =>
      rw [store_not_full record o s h hw hf, stamp_and_store_filenames] at hn
      exact Or.inl hn
    | true =>
      rw [store_full record o s h hw hf] at hn
      have hn1 : name ∈ filenames (warc_start_new_file o.rot s).2 := by
        cases hr : (warc_start_new_file o.rot s).1 with
        | false => rw [hr] at hn; exact hn
        | true =>
          rw [hr] at hn
          simp only [if_true] at hn
          rw [stamp_and_store_filenames] at hn
          exact hn
      cases hb : s.warc_filename with
      | none =>
        rw [rotate_filenames_not_opened o.rot s (Or.inl hb)] at hn1
        exact Or.inl hn1
      | some b =>
        cases ho : o.rot.open_ok with
        | false =>
          rw [rotate_filenames_not_opened o.rot s (Or.inr ho)] at hn1
          exact Or.inl hn1
        | true =>
          rw [rotate_filenames_ok o.rot s b hb ho] at hn1
          simp only [List.mem_append, List.mem_singleton] at hn1
          rcases hn1 with h1 | h1
          · exact Or.inl h1
          · exact Or.inr ⟨b, rfl, h1⟩

theorem store_all_filenames (calls : List (WRecord × StoreOutcome)) (s : State) (b : String)
    (hb : s.warc_filename = some b) (name : String)
    (hn : name ∈ filenames (store_all s calls)) :
    name ∈ filenames s ∨ ∃ n : Int,
      name = new_filename b s.warc_maxsize s.warc_compression_enabled n := by
  induction calls generalizing s with
  | nil => exact Or.inl hn
  | cons c rest ih =>
    obtain ⟨r, o⟩ := c
    obtain ⟨c1, c2, c3⟩ := store_config r o s
    rcases ih (warc_store_record r o s).2.2 (c1.trans hb) hn with h | ⟨n, h⟩
    · rcases store_filenames r o s name h with h1 | ⟨b1, hb1, h1⟩
      · exact Or.inl h1
      · rw [hb] at hb1
        cases hb1
        exact Or.inr ⟨_, h1⟩
    · rw [c2, c3] at h
      exact Or.inr ⟨n, h⟩

theorem init_success (c : Config) (b : String) (o : RotateOutcome)
    (hb : c.warc_filename = some b) (ho : o.open_ok = true) (hi : o.info_write_fails = false) :
    warc_init o (State.start c) =
      (warc_start_new_file o { State.start c with warc_current_file_number := -1 }).2 ∧
    (warc_init o (State.start c)).warc_filename = some b ∧
    (warc_init o (State.start c)).warc_maxsize = c.warc_maxsize ∧
    (warc_init o (State.start c)).warc_compression_enabled = c.warc_compression_enabled ∧
    (warc_init o (State.start c)).warc_current_wfile = some 0 ∧
    (warc_init o (State.start c)).warc_current_file_number = 0 ∧
    (warc_init o (State.start c)).files.length = 1 ∧
    filenames (warc_init o (State.start c))
      = [new_filename b c.warc_maxsize c.warc_compression_enabled 0] := by
  have hb1 : ({ State.start c with warc_current_file_number := -1 } : State).warc_filename
      = some b := hb
  have hok := (rotate_ok_iff o { State.start c with warc_current_file_number := -1 }).2
    ⟨by rw [hb1]; simp, ho, hi⟩
  have he := init_rotate_ok o (State.start c) b hb hok
  refine ⟨he, ?_⟩
  rw [he, rotate_open_ok o _ b hb1 ho]
  have e : int_incr (-1) = 0 := by decide
  simp [released, State.start, hb, filenames, rotate_file, e]

theorem store_rotating_step (record : WRecord) (o : StoreOutcome) (s : State) (b : String)
    (h : Nat) (hb : s.warc_filename = some b) (hw : s.warc_current_wfile = some h)
    (hf : WFile_isFull o.is_full h s = true) (ho : o.rot.open_ok = true)
    (hi : o.rot.info_write_fails = false) :
    (warc_store_record record o s).2.2.warc_filename = some b ∧
    (warc_store_record record o s).2.2.warc_current_wfile = some s.files.length ∧
    (warc_store_record record o s).2.2.warc_current_file_number
      = int_incr s.warc_current_file_number ∧
    (warc_store_record record o s).2.2.warc_current_winfo_uuid_str
      = some (warc_uuid_str o.rot.uuid) ∧
    (warc_store_record record o s).2.2.files.length = s.files.length + 1 ∧
    (∃ rs, (warc_store_record record o s).2.2.files
      = (released s).files ++ [{ rotate_file s b o.rot with records := rs }]) := by
  rw [store_rotated_eq record o s b h hb hw hf ho hi]
  have hl := released_files_length s
  refine ⟨?_, rfl, rfl, rfl, ?_, _, rfl⟩
  · simp [released, hb]
  · simp [hl]

/-- The state in which a store on a full file can rotate: a base name is set,
the current file exists and was blessed with a positive max size, and the
max size configured is positive. -/
theorem store_rotating_current (record : WRecord) (o : StoreOutcome) (s : State) (b : String)
    (h : Nat) (f : WFile) (hb : s.warc_filename = some b) (hw : s.warc_current_wfile = some h)
    (hfile : s.files[h]? = some f) (hpos : 0 < f.maxsize) (hm : 0 < s.warc_maxsize)
    (hflag : o.is_full = true) (ho : o.rot.open_ok = true)
    (hi : o.rot.info_write_fails = false) :
    ∃ g, (warc_store_record record o s).2.2.files[s.files.length]? = some g ∧
      0 < g.maxsize ∧
      g.serial = int_incr s.warc_current_file_number ∧
      g.filename = new_filename b s.warc_maxsize s.warc_compression_enabled
        (int_incr s.warc_current_file_number) ∧
      g.name = new_filename_buffer b s.warc_maxsize s.warc_compression_enabled
        (int_incr s.warc_current_file_number) := by
  have hf : WFile_isFull o.is_full h s = true := by
    rw [hflag]; exact isFull_true_of_bounded h s f hfile hpos
  obtain ⟨-, -, -, -, -, rs, hfiles⟩ := store_rotating_step record o s b h hb hw hf ho hi
  have hl := released_files_length s
  refine ⟨{ rotate_file s b o.rot with records := rs }, ?_, hm, rfl, rfl, rfl⟩
  rw [hfiles, ← hl]
  exact List.getElem?_concat_length _ _

theorem rotations_reach (record : WRecord) (o : StoreOutcome) (b : String)
    (hflag : o.is_full = true) (ho : o.rot.open_ok = true)
    (hi : o.rot.info_write_fails = false) (k : Nat) :
    ∀ s : State, s.warc_filename = some b → 0 < s.warc_maxsize →
      (∃ h f, s.warc_current_wfile = some h ∧ s.files[h]? = some f ∧ 0 < f.maxsize) →
      0 ≤ s.warc_current_file_number →
      s.warc_current_file_number + (k + 1 : Nat) ≤ INT_MAX →
      (store_all s (List.replicate (k + 1) (record, o))).warc_current_file_number
        = s.warc_current_file_number + (k + 1 : Nat) ∧
      ∃ g ∈ (store_all s (List.replicate (k + 1) (record, o))).files,
        g.serial = s.warc_current_file_number + (k + 1 : Nat) ∧
        g.filename = new_filename b s.warc_maxsize s.warc_compression_enabled
          (s.warc_current_file_number + (k + 1 : Nat)) ∧
        g.name = new_filename_buffer b s.warc_maxsize s.warc_compression_enabled
          (s.warc_current_file_number + (k + 1 : Nat)) := by
  induction k with
  | zero =>
    intro s hb hm ⟨h, f, hw, hfile, hpos⟩ h0 h1
    have hf : WFile_isFull o.is_full h s = true := by
      rw [hflag]; exact isFull_true_of_bounded h s f hfile hpos
    obtain ⟨-, -, s3, -, -, -⟩ := store_rotating_step record o s b h hb hw hf ho hi
    obtain ⟨g, g1, -, g3, g4, g5⟩ :=
      store_rotating_current record o s b h f hb hw hfile hpos hm hflag ho hi
    have e : int_incr s.warc_current_file_number
        = s.warc_current_file_number + ((0 + 1 : Nat) : Int) := by
      rw [int_incr_eq _ (by omega) (by push_cast at h1; unfold INT_MAX at *; omega)]
      push_cast
      ring
    rw [e] at s3 g3 g4 g5
    simp only [List.replicate, store_all]
    exact ⟨s3, g, List.getElem?_mem g1, g3, g4, g5⟩
  | succ k ih =>
    intro s hb hm ⟨h, f, hw, hfile, hpos⟩ h0 h1
    have hf : WFile_isFull o.is_full h s = true := by
      rw [hflag]; exact isFull_true_of_bounded h s f hfile hpos
    obtain ⟨s1, s2, s3, -, -, -⟩ := store_rotating_step record o s b h hb hw hf ho hi
    obtain ⟨g, g1, g2, -, -, -⟩ :=
      store_rotating_current record o s b h f hb hw hfile hpos hm hflag ho hi
    obtain ⟨-, c2, c3⟩ := store_config record o s
    have e1 : int_incr s.warc_current_file_number = s.warc_current_file_number + 1 :=
      int_incr_eq _ (by omega) (by push_cast at h1; unfold INT_MAX at *; omega)
    rw [e1] at s3
    have := ih (warc_store_record record o s).2.2 s1 (by rw [c2]; exact hm)
      ⟨s.files.length, g, s2, g1, g2⟩ (by rw [s3]; omega)
      (by rw [s3]; push_cast at h1 ⊢; omega)
    rw [s3, c2, c3] at this
    rw [List.replicate_succ]
    unfold store_all
    have e : s.warc_current_file_number + 1 + ((k + 1 : Nat) : Int)
        = s.warc_current_file_number + ((k + 1 + 1 : Nat) : Int) := by
      push_cast
      ring
    rw [e] at this
    exact this

theorem init_files (c : Config) (b : String) (o : RotateOutcome)
    (hb : c.warc_filename = some b) (ho : o.open_ok = true) (hi : o.info_write_fails = false) :
    (warc_init o (State.start c)).files
      = [rotate_file { State.start c with warc_current_file_number := -1 } b o] := by
  obtain ⟨he, -⟩ := init_success c b o hb ho hi
  have hb1 : ({ State.start c with warc_current_file_number := -1 } : State).warc_filename
      = some b := hb
  rw [he, rotate_open_ok o _ b hb1 ho]
  simp [released, State.start]

/-- A store on a writer whose one file was blessed with a max size that is not
positive never rotates: the file stays the current and only one, and only its
records can change. -/
theorem store_unbounded_step (record : WRecord) (o : StoreOutcome) (s : State) (f : WFile)
    (hw : s.warc_current_wfile = some 0) (hfiles : s.files = [f]) (hm : ¬ 0 < f.maxsize) :
    (warc_store_record record o s).2.2.warc_current_wfile = some 0 ∧
    (warc_store_record record o s).2.2.warc_current_file_number
      = s.warc_current_file_number ∧
    ∃ rs, (warc_store_record record o s).2.2.files = [{ f with records := rs }] := by
  have hfile : s.files[0]? = some f := by rw [hfiles]; rfl
  have hf := isFull_false_of_unbounded o.is_full 0 s f hfile hm
  rw [store_not_full record o s 0 hw hf]
  obtain ⟨-, h2, h3, -⟩ := stamp_and_store_frame record o.write_fails s
  refine ⟨by rw [h2, hw], h3, ?_⟩
  unfold stamp_and_store
  rw [hw]
  cases o.write_fails
  · refine ⟨f.records ++ [warc_setWarcInfoId record s.warc_current_winfo_uuid_str], ?_⟩
    simp only [Bool.false_eq_true, if_false, hfiles]
    rfl
  · exact ⟨f.records, by simp [hfiles]⟩

theorem store_all_unbounded (calls : List (WRecord × StoreOutcome)) (s : State) (f : WFile)
    (hw : s.warc_current_wfile = some 0) (hfiles : s.files = [f]) (hm : ¬ 0 < f.maxsize) :
    (store_all s calls).warc_current_wfile = some 0 ∧
    (store_all s calls).warc_current_file_number = s.warc_current_file_number ∧
    ∃ rs, (store_all s calls).files = [{ f with records := rs }] := by
  induction calls generalizing s f with
  | nil => exact ⟨hw, rfl, f.records, hfiles⟩
  | cons a rest ih =>
    obtain ⟨r, o⟩ := a
    obtain ⟨a1, a2, rs, a3⟩ := store_unbounded_step r o s f hw hfiles hm
    obtain ⟨b1, b2, rs1, b3⟩ := ih (warc_store_record r o s).2.2 { f with records := rs }
      a1 a3 hm
    unfold store_all
    exact ⟨b1, b2.trans a2, rs1, b3⟩

/-- In the run that rotates at every store, the `n`-th store opens the file
numbered `n`, under the name formatted for that number. -/
theorem rotating_run_file (n : Nat) (h1 : 1 ≤ n) (hn : n ≤ 2147483647) :
    ∃ g ∈ (store_all (warc_init rot_ok (State.start cfg_rotating))
        (List.replicate n (rec_response, store_rotating))).files,
      g.serial = (n : Int) ∧
      g.filename = new_filename "crawl" 1000 true (n : Int) ∧
      g.name = new_filename_buffer "crawl" 1000 true (n : Int) := by
  obtain ⟨k, rfl⟩ : ∃ k, n = k + 1 := ⟨n - 1, by omega⟩
  obtain ⟨-, i1, i2, i3, i4, i5, -, -⟩ :=
    init_success cfg_rotating "crawl" rot_ok rfl rfl rfl
  have hfiles := init_files cfg_rotating "crawl" rot_ok rfl rfl rfl
  have h := (rotations_reach rec_response store_rotating "crawl" rfl rfl rfl k
    (warc_init rot_ok (State.start cfg_rotating)) i1 (by rw [i2]; decide)
    ⟨0, _, i4, by rw [hfiles]; rfl, by decide⟩ (by rw [i5])
    (by rw [i5]; unfold INT_MAX; push_cast; omega)).2
  rw [i2, i3, i5] at h
  simpa using h

/-! ## Serial numbers -/

theorem released_LinkInv_files (s : State) (hs : LinkInv s) :
    ∀ f ∈ (released s).files,
      InfoFirst f ∧ f.winfo.recordType = some warc_rec_t.WARC_INFO_RECORD := by
  intro f hf
  unfold released at hf
  cases hw : s.warc_current_wfile with
  | none => rw [hw] at hf; exact hs.1 f hf
  | some h =>
    rw [hw] at hf
    rcases mem_modify _ _ _ _ hf with h1 | ⟨y, hy, rfl⟩
    · exact hs.1 f h1
    · exact hs.1 y (List.getElem?_mem hy)

theorem rotate_LinkInv (o : RotateOutcome) (s : State) (hs : LinkInv s)
    (hi : o.info_write_fails = false) : LinkInv (warc_start_new_file o s).2 := by
  cases hb : s.warc_filename with
  | none => rw [rotate_no_filename o s hb]; exact hs
  | some b =>
    cases ho : o.open_ok with
    | false =>
      rw [rotate_open_fails o s b hb ho]
      exact ⟨released_LinkInv_files s hs, fun h hh => absurd hh (by simp)⟩
    | true =>
      rw [rotate_open_ok o s b hb ho]
      constructor
      · intro f hf
        simp only [List.mem_append, List.mem_singleton] at hf
        rcases hf with hf | rfl
        · exact released_LinkInv_files s hs f hf
        · refine ⟨⟨?_, ?_⟩, rfl⟩
          · simp [rotate_file, hi]
          · simp [rotate_file, hi]
      · intro h hh
        simp only [Option.some.injEq] at hh
        subst hh
        refine ⟨rotate_file s b o, ?_, rfl⟩
        simp only []
        rw [← released_files_length s]
        exact List.getElem?_concat_length _ _

theorem stamp_and_store_LinkInv (record : WRecord) (w : Bool) (s : State) (hs : LinkInv s) :
    LinkInv (stamp_and_store record w s).2.2 := by
  unfold stamp_and_store
  cases hw : s.warc_current_wfile with
  | none => exact hs
  | some h =>
    cases w with
    | true => exact hs
    | false =>
      obtain ⟨fc, hfc, hu⟩ := hs.2 h hw
      simp only [Bool.false_eq_true, if_false]
      constructor
      · intro f hf
        rcases mem_modify _ _ _ _ hf with h1 | ⟨y, hy, rfl⟩
        · exact hs.1 f h1
        · obtain ⟨⟨hy1, hy2⟩, hy3⟩ := hs.1 y (List.getElem?_mem hy)
          rw [hfc] at hy
          cases hy
          refine ⟨⟨?_, ?_⟩, hy3⟩
          · cases hr : fc.records with
            | nil => rw [hr] at hy1; simp at hy1
            | cons a rest => rw [hr] at hy1; simpa using hy1
          · intro r hr
            cases hrec : fc.records with
            | nil => rw [hrec] at hy1; simp at hy1
            | cons a rest =>
              rw [hrec] at hy2
              simp only [hrec, List.cons_append, List.tail_cons, List.mem_append,
                List.mem_singleton] at hr hy2
              rcases hr with hr | rfl
              · exact hy2 r hr
              · exact hu
      · intro h1 hh1
        simp only [hw, Option.some.injEq] at hh1
        subst hh1
        refine ⟨{ fc with records := fc.records ++
          [warc_setWarcInfoId record s.warc_current_winfo_uuid_str] }, ?_, hu⟩
        simp [List.getElem?_modify_eq, hfc]

theorem store_LinkInv (record : WRecord) (o : StoreOutcome) (s : State) (hs : LinkInv s)
    (hi : o.rot.info_write_fails = false) : LinkInv (warc_store_record record o s).2.2 := by
  cases hw : s.warc_current_wfile with
  | none => rw [store_no_file record o s hw]; exact hs
  | some h =>
    cases hf : WFile_isFull o.is_full h s with
    | false =>
      rw [store_not_full record o s h hw hf]
      exact stamp_and_store_LinkInv record _ s hs
    | true =>
      rw [store_full record o s h hw hf]
      have hr := rotate_LinkInv o.rot s hs hi
      cases (warc_start_new_file o.rot s).1 with
      | false => exact hr
      | true => exact stamp_and_store_LinkInv record _ _ hr

theorem init_LinkInv (c : Config) (o : RotateOutcome) (hi : o.info_write_fails = false) :
    LinkInv (warc_init o (State.start c)) := by
  have h0 : LinkInv { State.start c with warc_current_file_number := -1 } :=
    ⟨fun f hf => absurd hf (by simp [State.start]), fun h hh => absurd hh (by simp [State.start])⟩
  cases hb : (State.start c).warc_filename with
  | none =>
    rw [init_no_filename o _ hb]
    exact ⟨fun f hf => absurd hf (by simp [State.start]),
      fun h hh => absurd hh (by simp [State.start])⟩
  | some b =>
    have hr := rotate_LinkInv o _ h0 hi
    cases hok : (warc_start_new_file o
        { State.start c with warc_current_file_number := -1 }).1 with
    | true => rw [init_rotate_ok o _ b hb hok]; exact hr
    | false => rw [init_rotate_fails o _ b hb hok]; exact hr

/-- What holds of C1: as long as no write of a warcinfo record fails, every
file opened has the warcinfo record of its rotation as first record, and all
its other records carry that record's identifier. -/
theorem info_first_when_info_written (c : Config) (o0 : RotateOutcome)
    (calls : List (WRecord × StoreOutcome)) (h0 : o0.info_write_fails = false)
    (hc : ∀ call ∈ calls, call.2.rot.info_write_fails = false) :
    ∀ f ∈ (store_all (warc_init o0 (State.start c)) calls).files,
      f.records.head? = some f.winfo ∧
      f.winfo.recordType = some warc_rec_t.WARC_INFO_RECORD ∧
      ∀ r ∈ f.records.tail, r.warcInfoId = f.winfo.recordId := by
  have key : ∀ (calls : List (WRecord × StoreOutcome)) (s : State), LinkInv s →
      (∀ call ∈ calls, call.2.rot.info_write_fails = false) →
      LinkInv (store_all s calls) := by
    intro calls
    induction calls with
    | nil => intro s hs _; exact hs
    | cons a rest ih =>
      intro s hs hc
      obtain ⟨r, o⟩ := a
      exact ih _ (store_LinkInv r o s hs (hc (r, o) (by simp)))
        (fun call hcall => hc call (by simp [hcall]))
  intro f hf
  obtain ⟨⟨h1, h2⟩, h3⟩ := (key calls _ (init_LinkInv c o0 h0) hc).1 f hf
  exact ⟨h1, h3, h2⟩

/-- What holds of C3 and C4: when `bless` returns `NULL` in the rotation of
`warc_init`, no file is current afterwards, and every later
`warc_store_record` fails and changes nothing. -/
theorem init_open_failure_disables (c : Config) (o0 : RotateOutcome)
    (ho : o0.open_ok = false) (calls : List (WRecord × StoreOutcome)) :
    (warc_init o0 (State.start c)).warc_current_wfile = none ∧
    (warc_init o0 (State.start c)).files = [] ∧
    store_all (warc_init o0 (State.start c)) calls = warc_init o0 (State.start c) ∧
    ∀ (record : WRecord) (o : StoreOutcome),
      warc_store_record record o (warc_init o0 (State.start c))
        = (false, record, warc_init o0 (State.start c)) := by
  have hw : (warc_init o0 (State.start c)).warc_current_wfile = none ∧
      (warc_init o0 (State.start c)).files = [] := by
    cases hb : (State.start c).warc_filename with
    | none => rw [init_no_filename o0 _ hb]; exact ⟨rfl, rfl⟩
    | some b =>
      have hb1 : ({ State.start c with warc_current_file_number := -1 } : State).warc_filename
          = some b := hb
      have hr := rotate_open_fails o0 _ b hb1 ho
      have hok : (warc_start_new_file o0
          { State.start c with warc_current_file_number := -1 }).1 = false := by rw [hr]
      rw [init_rotate_fails o0 _ b hb hok, hr]
      exact ⟨rfl, rfl⟩
  exact ⟨hw.1, hw.2, store_all_no_file calls _ hw.1, fun r o => store_no_file r o _ hw.1⟩

/-! ## Lengths: time stamps, identifiers and the warcinfo body -/

theorem toDigitsCore_length_ge (f : Nat) : ∀ n e : Nat, n < f → 10 ^ e ≤ n →
    e + 1 ≤ (Nat.toDigitsCore 10 f n []).length := by
  induction f with
  | zero => intro n e hn; omega
  | succ f ih =>
    intro n e hn he
    simp only [Nat.toDigitsCore]
    cases e with
    | zero =>
      split
      · simp
      · rw [Nat.toDigitsCore_lens_eq]; omega
    | succ e =>
      have h10 : 10 ^ e ≤ n / 10 := by
        rw [Nat.le_div_iff_mul_le (by decide)]
        rw [pow_succ] at he
        exact he
      have hpos : 0 < 10 ^ e := Nat.pow_pos (by decide)
      have hne : ¬ (n / 10 = 0) := by omega
      rw [if_neg hne, Nat.toDigitsCore_lens_eq]
      have hlt : n / 10 < f := by omega
      have := ih (n / 10) e hlt h10
      omega

theorem toDigits_length_eq (n e : Nat) (lo : 10 ^ e ≤ n) (hi : n < 10 ^ (e + 1)) :
    (Nat.toDigits 10 n).length = e + 1 := by
  have h1 := toDigits_length_le n (e + 1) (by omega) hi
  have h2 := toDigitsCore_length_ge (n + 1) n e (by omega) lo
  unfold Nat.toDigits at *
  omega

theorem fmt_0d_two_digits (x : Int) (h0 : 0 ≤ x) (h1 : x ≤ 99) : (fmt_0d 2 x).length = 2 := by
  obtain ⟨n, rfl⟩ := Int.eq_ofNat_of_zero_le h0
  rw [fmt_0d_natCast]
  have h := toDigits_length_le n 2 (by decide) (by omega)
  simp only [String.length, List.length_append, List.length_replicate]
  have hpos : 0 < (Nat.toDigits 10 n).length := by
    have := toDigitsCore_length_ge (n + 1) n 0 (by omega)
    unfold Nat.toDigits
    by_cases hn : 1 ≤ n
    · have := this (by simpa using hn); omega
    · have hz : n = 0 := by omega
      subst hz
      decide
  omega

theorem fmt_d_four_digits (y : Int) (h0 : 1000 ≤ y) (h1 : y ≤ 9999) : (fmt_d y).length = 4 := by
  obtain ⟨n, rfl⟩ := Int.eq_ofNat_of_zero_le (by omega : 0 ≤ y)
  unfold fmt_d
  rw [fmt_0d_natCast]
  have h := toDigits_length_eq n 3 (by norm_num; omega) (by norm_num; omega)
  simp only [String.length, List.length_append, List.length_replicate, h]

theorem strftime_format_length (t : tm) (hr : tm_in_range t)
    (hy0 : 1000 ≤ t.tm_year + 1900) (hy1 : t.tm_year + 1900 ≤ 9999) :
    (strftime_format t).length = 20 := by
  obtain ⟨s0, s1, m0, m1, h0, h1, d0, d1, n0, n1⟩ := hr
  unfold strftime_format
  simp only [String.length_append]
  rw [fmt_d_four_digits _ hy0 hy1, fmt_0d_two_digits _ (by omega) (by omega : t.tm_mon + 1 ≤ 99),
    fmt_0d_two_digits _ (by omega) (by omega : t.tm_mday ≤ 99),
    fmt_0d_two_digits _ h0 (by omega), fmt_0d_two_digits _ m0 (by omega),
    fmt_0d_two_digits _ s0 (by omega)]
  rfl

theorem strftime_format_ends_in_Z (t : tm) :
    (strftime_format t).data.getLast? = some 'Z' := by
  unfold strftime_format
  rw [String.data_append]
  exact List.getLast?_concat _

theorem uuid_unparse_length (u : uuid_t) : (uuid_unparse u).length = 36 := by
  have h := u.property
  unfold uuid_unparse
  simp only [String.length, List.length_append, List.length_cons, hex_bytes_length,
    List.length_take, List.length_drop, h]
  rfl

theorem winfo_header_string_length (version os : String) (robots : Bool) (args : String) :
    (winfo_header_string version os robots args).length
      = 159 + version.length + os.length + (if robots then 7 else 3) + args.length := by
  have e1 : "software: Wget/".length = 15 := rfl
  have e2 : " (".length = 2 := rfl
  have e3 : ")\r\nformat: WARC File Format 1.0\r\nconformsTo: http://bibnum.bnf.fr/WARC/WARC_ISO_28500_version1_latestdraft.pdf\r\nrobots: ".length
      = 120 := rfl
  have e4 : "\r\nwget-arguments: ".length = 18 := rfl
  have e5 : "\r\n\r\n".length = 4 := rfl
  have e6 : "classic".length = 7 := rfl
  have e7 : "off".length = 3 := rfl
  unfold winfo_header_string
  simp only [String.length_append, e1, e2, e3, e4, e5]
  cases robots
  · simp only [Bool.false_eq_true, if_false, e7]; omega
  · simp only [if_true, e6]; omega

theorem winfo_header_buffer_some_iff (version os : String) (robots : Bool) (args : String) :
    winfo_header_buffer version os robots args
        = some (winfo_header_string version os robots args) ↔
      159 + version.length + os.length + (if robots then 7 else 3) + args.length ≤ 399 := by
  have hl := winfo_header_string_length version os robots args
  unfold winfo_header_buffer
  constructor
  · intro h
    by_contra hc
    rw [if_neg (by omega)] at h
    exact absurd h (by simp)
  · intro h
    rw [if_pos (by omega)]

theorem winfo_header_buffer_overrun (version os : String) (robots : Bool) (args : String)
    (h : 399 < 159 + version.length + os.length + (if robots then 7 else 3) + args.length) :
    winfo_header_buffer version os robots args = none := by
  have hl := winfo_header_string_length version os robots args
  unfold winfo_header_buffer
  rw [if_neg (by omega)]

/-! ## The warcinfo record of a rotation -/

theorem released_record_lists (s : State) : record_lists (released s) = record_lists s := by
  unfold record_lists released
  cases s.warc_current_wfile with
  | none => rfl
  | some h =>
    dsimp only
    exact map_modify_of_proj WFile.records _ (by intro x; rfl) _ _

theorem takeWhile_append_stop {α : Type} (p : α → Bool) (l r : List α) (a : α)
    (hl : ∀ x ∈ l, p x = true) (ha : p a = false) :
    (l ++ a :: r).takeWhile p = l := by
  induction l with
  | nil => simp [List.takeWhile, ha]
  | cons x l ih =>
    have hx := hl x (by simp)
    simp only [List.cons_append, List.takeWhile_cons, hx, if_true]
    rw [ih (fun y hy => hl y (by simp [hy]))]

theorem takeWhile_all {α : Type} (p : α → Bool) (l : List α) (hl : ∀ x ∈ l, p x = true) :
    l.takeWhile p = l := by
  induction l with
  | nil => rfl
  | cons x l ih =>
    have hx := hl x (by simp)
    simp only [List.takeWhile_cons, hx, if_true]
    rw [ih (fun y hy => hl y (by simp [hy]))]

/-- The function `basename` returns the final component of a path: what
follows the last slash. -/
theorem basename_final_component (dir name : String) (hn : '/' ∉ name.data) :
    basename (dir ++ "/" ++ name) = name ∧ basename name = name := by
  have hp : ∀ x ∈ name.data.reverse, (x != '/') = true := by
    intro x hx
    simp only [List.mem_reverse] at hx
    simp only [bne_iff_ne, ne_eq]
    intro hc
    exact hn (hc ▸ hx)
  constructor
  · unfold basename
    have hd : (dir ++ "/" ++ name).data.reverse
        = name.data.reverse ++ '/' :: dir.data.reverse := by
      simp [String.data_append]
    rw [hd, takeWhile_append_stop _ _ _ _ hp (by simp), List.reverse_reverse]
  · unfold basename
    rw [takeWhile_all _ _ hp, List.reverse_reverse]

/-- What holds of C15: the warcinfo record `warc_start_new_file` builds has
kind info, content type `application/warc-fields`, the new identifier as
record id, the final component of the new file name as file name and, when the
text fits the 400-byte buffer, a body made of the fixed text around the robots
mode and the session argument string. -/
theorem rotate_winfo_fields (s : State) (b : String) (o : RotateOutcome) :
    (rotate_winfo s b o).recordType = some warc_rec_t.WARC_INFO_RECORD ∧
    (rotate_winfo s b o).contentType = some "application/warc-fields" ∧
    (rotate_winfo s b o).recordId = some (warc_uuid_str o.uuid) ∧
    (rotate_winfo s b o).date = warc_timestamp o.now ∧
    (rotate_winfo s b o).filename = (new_filename_buffer b s.warc_maxsize
      s.warc_compression_enabled (int_incr s.warc_current_file_number)).map basename ∧
    (rotate_winfo s b o).warcInfoId = none ∧
    (159 + s.version_string.length + s.os_type.length + (if s.use_robots then 7 else 3)
        + s.program_argstring.length ≤ 399 →
      (rotate_winfo s b o).content = some ("software: Wget/" ++ s.version_string ++ " ("
        ++ s.os_type ++ ")\r\nformat: WARC File Format 1.0\r\nconformsTo: http://bibnum.bnf.fr/WARC/WARC_ISO_28500_version1_latestdraft.pdf\r\nrobots: "
        ++ (if s.use_robots then "classic" else "off") ++ "\r\nwget-arguments: "
        ++ s.program_argstring ++ "\r\n\r\n")) ∧
    (399 < 159 + s.version_string.length + s.os_type.length + (if s.use_robots then 7 else 3)
        + s.program_argstring.length →
      (rotate_winfo s b o).content = none) := by
  refine ⟨?_, ?_, ?_, ?_, ?_, ?_, ?_, ?_⟩ <;>
    simp only [rotate_winfo, infoWRecord, warc_setContentFromString, warc_setFilename,
      warc_setRecordId, warc_setDate, warc_setContentType, warc_setRecordType, WRecord.bless]
  · exact (winfo_header_buffer_some_iff _ _ _ _).2
  · exact winfo_header_buffer_overrun _ _ _ _

/-- What holds of C15: a successful `warc_start_new_file` writes the record
`rotate_winfo` as the only record of the file it opens and keeps its record id
as the identifier of the writer. -/
theorem rotate_writes_winfo (o : RotateOutcome) (s : State) (b : String)
    (hb : s.warc_filename = some b) (ho : o.open_ok = true)
    (hi : o.info_write_fails = false) :
    (warc_start_new_file o s).1 = true ∧
    (warc_start_new_file o s).2.warc_current_wfile = some s.files.length ∧
    (warc_start_new_file o s).2.warc_current_winfo_uuid_str = (rotate_winfo s b o).recordId ∧
    record_lists (warc_start_new_file o s).2 = record_lists s ++ [[rotate_winfo s b o]] := by
  rw [rotate_open_ok o s b hb ho]
  refine ⟨by simp [hi], rfl, rfl, ?_⟩
  have hr := released_record_lists s
  unfold record_lists at *
  simp only [List.map_append, hr, List.map_cons, List.map_nil, rotate_file, hi,
    Bool.false_eq_true, if_false]

theorem init_winfo_overrun (c : Config) (b : String) (o : RotateOutcome)
    (h : 399 < 159 + c.version_string.length + c.os_type.length
      + (if c.use_robots then 7 else 3) + c.program_argstring.length) :
    (rotate_winfo { State.start c with warc_current_file_number := -1 } b o).content
      = none :=
  (rotate_winfo_fields { State.start c with warc_current_file_number := -1 } b o).2.2.2.2.2.2.2 h

/-! ## Scratch files -/

/-- What holds of C16 and C17: for every directory the template with its
terminating NUL is one byte longer than the buffer reserved for it, so the
buffer never holds it. -/
theorem tempfile_buffer_none (d : String) : tempfile_buffer d = none := by
  have h : (tempfile_template d).length = d.length + 18 := by
    unfold tempfile_template
    rw [String.length_append]
    rfl
  unfold tempfile_buffer tempfile_alloca
  rw [if_neg (by omega)]

/-- What holds of C16: lines 260-267 of `warc_tempfile`, run on a template
that is in its buffer, return `NULL` when `mkstemp` fails and when `unlink`
fails; when they return a stream, `mkstemp` and `unlink` both succeeded, the
stream is on the descriptor `mkstemp` returned, and the name of the file
created has no directory entry any more. -/
theorem tempfile_from_template_handle (o : TempOutcome) (filename : String) (fs : FileSystem) :
    (o.created = none → (tempfile_from_template o filename fs).1 = none) ∧
    (o.unlink_ok = false → (tempfile_from_template o filename fs).1 = none) ∧
    (∀ stream, (tempfile_from_template o filename fs).1 = some stream →
      ∃ suffix fd, o.created = some (suffix, fd) ∧
        o.unlink_ok = true ∧ stream = (fd : Int) ∧
        (mkstemp o filename fs).2.1 ∉ (tempfile_from_template o filename fs).2.entries ∧
        (tempfile_from_template o filename fs).2.entries = fs.entries.filter
          (fun e => e != (mkstemp o filename fs).2.1)) := by
  unfold tempfile_from_template
  cases hc : o.created with
  | none => simp [mkstemp, hc]
  | some p =>
    obtain ⟨suffix, fd⟩ := p
    have hfd : ¬ ((fd : Int) < 0) := by omega
    cases hu : o.unlink_ok with
    | false => simp [mkstemp, hc, unlink, hu, hfd]
    | true =>
      simp only [mkstemp, hc, unlink, hu, hfd, if_true, if_false, fdopen]
      refine ⟨by simp, by simp, ?_⟩
      intro stream hs
      have h0 : ¬ ((0 : Int) < 0) := by omega
      simp only [h0, if_false] at hs ⊢
      refine ⟨suffix, fd, ?_, ?_, ?_, ?_, ?_⟩
      · trivial
      · trivial
      · cases hfo : o.fdopen_ok with
        | false => rw [hfo] at hs; simp at hs
        | true => rw [hfo] at hs; simpa using hs.symm
      · simp
      · simp

/-! ## The claims -/

/-- C1, where the code breaks it, the write of the warcinfo record failing:
`warc_init` returns
with the new file `crawl.warc` still current, the next `warc_store_record`
succeeds, and the first and only record of that file is the response record,
not the warcinfo record built for the file. -/
theorem C1_first_record_not_info :
    (store_all (warc_init rot_info_fails (State.start cfg_crawl))
        [(rec_response, store_ok)]).files.map
      (fun f => (f.filename, f.records.map WRecord.recordType, f.winfo.recordType,
        decide (f.records.head? = some f.winfo)))
      = [("crawl.warc", [some warc_rec_t.WARC_RESPONSE_RECORD],
          some warc_rec_t.WARC_INFO_RECORD, false)] := by
  decide

/-- C2, where the code breaks it, the 100001st file with compression: with
base `crawl`, max size 1000 and compression the file numbered 100000 is to be
named `crawl-100000.warc.gz`, and that is the text `warc_start_new_file`
formats; but the text with its terminating NUL needs 21 bytes and the buffer
reserved for it has 20, so `sprintf` overruns the buffer and no name is
defined for the file that `bless` opens.  The run that rotates at every store
reaches that file with its 100000th store, and the overrun occurs for every
base path.  Up to the serial 99999 the buffer holds the name the
specification writes (`new_filename_buffer_in_range`). -/
theorem C2_filename_overruns :
    spec_filename "crawl" 100000 1000 true = "crawl-100000.warc.gz" ∧
    new_filename "crawl" 1000 true 100000 = "crawl-100000.warc.gz" ∧
    "crawl-100000.warc.gz".length + 1 = 21 ∧
    new_filename_alloca "crawl" = 20 ∧
    new_filename_buffer "crawl" 1000 true 100000 = none ∧
    names (warc_start_new_file rot_ok
        { State.start cfg_rotating with warc_current_file_number := 99999 }).2 = [none] ∧
    (∃ g ∈ (store_all (warc_init rot_ok (State.start cfg_rotating))
        (List.replicate 100000 (rec_response, store_rotating))).files,
      g.serial = 100000 ∧ g.name = none) ∧
    (∀ b : String, new_filename_buffer b 1000 true 100000 = none) ∧
    new_filename_buffer "crawl" 1000 true 99999 = some "crawl-99999.warc.gz" := by
  refine ⟨by decide, by decide, by decide, by decide, by decide, by decide, ?_,
    fun b => (new_filename_buffer_overrun b).2, by decide⟩
  obtain ⟨g, hg, g1, -, g3⟩ := rotating_run_file 100000 (by decide) (by decide)
  refine ⟨g, hg, by simpa using g1, ?_⟩
  rw [g3]
  exact (new_filename_buffer_overrun "crawl").2

/-- C3, where the code breaks it, the write of the warcinfo record failing:
`warc_start_new_file` returns `false` and leaves the newly opened file
current, so the following `warc_store_record` takes the open-file branch and
succeeds.  (When `bless` fails, the pointer is `NULL` afterwards.) -/
theorem C3_info_write_failure_leaves_file_open :
    (warc_start_new_file rot_info_fails (State.start cfg_crawl)).1 = false ∧
    (warc_start_new_file rot_info_fails (State.start cfg_crawl)).2.warc_current_wfile
      = some 0 ∧
    (warc_store_record rec_response store_ok
      (warc_start_new_file rot_info_fails (State.start cfg_crawl)).2).1 = true ∧
    (warc_start_new_file rot_open_fails (State.start cfg_crawl)).2.warc_current_wfile
      = none := by
  decide

/-- C4, where the code breaks it, the write of the warcinfo record failing:
`warc_init` then
clears `opt.warc_filename`, but the file stays current, and the next
`warc_store_record` succeeds and appends the record to it. -/
theorem C4_store_after_failed_init :
    (warc_init rot_info_fails (State.start cfg_crawl)).warc_filename = none ∧
    (warc_init rot_info_fails (State.start cfg_crawl)).warc_current_wfile = some 0 ∧
    (warc_store_record rec_response store_ok
      (warc_init rot_info_fails (State.start cfg_crawl))).1 = true ∧
    (warc_store_record rec_response store_ok
      (warc_init rot_info_fails (State.start cfg_crawl))).2.2.files.map
        (fun f => f.records.map WRecord.recordType)
      = [[some warc_rec_t.WARC_RESPONSE_RECORD]] := by
  decide

/-- C5: a `warc_store_record` call that reaches the append (a file is
current, and `WFile_isFull` reports it not full or the rotation succeeded)
stamps the record
with the identifier the writer holds at the append, whatever the producer had
set; on a successful write that stamped record is the last record of the
current file.  Without rotation the identifier is the one held before the
call; after a rotation it is the identifier of the warcinfo record that heads
the newly opened file, and differs from the previous file's identifier whenever
the two UUIDs differ. -/
theorem C5_linkage_id_is_current (s : State) (record : WRecord) (o : StoreOutcome) (h : Nat)
    (hw : s.warc_current_wfile = some h) (hh : h < s.files.length)
    (hreach : WFile_isFull o.is_full h s = false ∨ (warc_start_new_file o.rot s).1 = true) :
    (warc_store_record record o s).2.1 =
      { record with
        warcInfoId := (warc_store_record record o s).2.2.warc_current_winfo_uuid_str } ∧
    (o.write_fails = false → ∃ h1 f,
      (warc_store_record record o s).2.2.warc_current_wfile = some h1 ∧
      (warc_store_record record o s).2.2.files[h1]? = some f ∧
      f.records.getLast? = some (warc_store_record record o s).2.1) ∧
    (WFile_isFull o.is_full h s = false →
      (warc_store_record record o s).2.2.warc_current_winfo_uuid_str
        = s.warc_current_winfo_uuid_str) ∧
    (WFile_isFull o.is_full h s = true →
      (warc_store_record record o s).2.1.warcInfoId = some (warc_uuid_str o.rot.uuid) ∧
      (∃ f, (warc_store_record record o s).2.2.warc_current_wfile = some s.files.length ∧
        (warc_store_record record o s).2.2.files[s.files.length]? = some f ∧
        f.records.head? = some f.winfo ∧
        f.winfo.recordId = some (warc_uuid_str o.rot.uuid)) ∧
      (∀ u_old : uuid_t, s.warc_current_winfo_uuid_str = some (warc_uuid_str u_old) →
        u_old ≠ o.rot.uuid →
        (warc_store_record record o s).2.1.warcInfoId ≠ s.warc_current_winfo_uuid_str)) := by
  cases hf : WFile_isFull o.is_full h s with
  | false =>
    rw [store_not_full record o s h hw hf]
    refine ⟨?_, ?_, ?_, fun hc => absurd hc (by simp)⟩
    · unfold stamp_and_store
      rw [hw]
      cases o.write_fails <;> rfl
    · intro hwf
      refine ⟨h, { s.files[h] with records := s.files[h].records ++
        [warc_setWarcInfoId record s.warc_current_winfo_uuid_str] }, ?_, ?_, ?_⟩
      · simp [stamp_and_store, hw, hwf]
      · simp [stamp_and_store, hw, hwf, List.getElem?_modify_eq, hh]
      · simp [stamp_and_store, hw, hwf]
    · intro _
      exact (stamp_and_store_frame record o.write_fails s).2.2.2.1
  | true =>
    have hok : (warc_start_new_file o.rot s).1 = true := by
      rcases hreach with h1 | h1
      · rw [hf] at h1; exact absurd h1 (by simp)
      · exact h1
    obtain ⟨hb0, ho, hi⟩ := (rotate_ok_iff o.rot s).1 hok
    obtain ⟨b, hb⟩ := Option.ne_none_iff_exists'.mp hb0
    rw [store_rotated_eq record o s b h hb hw hf ho hi]
    have hl := released_files_length s
    refine ⟨rfl, ?_, fun hc => absurd hc (by simp), fun _ => ⟨rfl, ?_, ?_⟩⟩
    · intro hwf
      refine ⟨s.files.length, { rotate_file s b o.rot with
          records := rotate_winfo s b o.rot ::
            (if o.write_fails then []
             else [{ record with warcInfoId := some (warc_uuid_str o.rot.uuid) }]) }, rfl, ?_, ?_⟩
      · simp only []
        rw [← hl]
        exact List.getElem?_concat_length _ _
      · simp [hwf]
    · refine ⟨{ rotate_file s b o.rot with
          records := rotate_winfo s b o.rot ::
            (if o.write_fails then []
             else [{ record with warcInfoId := some (warc_uuid_str o.rot.uuid) }]) }, rfl, ?_, ?_, ?_⟩
      · simp only []
        rw [← hl]
        exact List.getElem?_concat_length _ _
      · rfl
      · rfl
    · intro u_old hu hne
      rw [hu]
      simp only [ne_eq, Option.some.injEq]
      intro heq
      exact hne (warc_uuid_str_injective _ _ heq).symm

/-- C5 at a concrete call: the first file is full, the call rotates and the
record, submitted with a stale linkage id, is stamped with the identifier of
the new file. -/
theorem C5_linkage_id_is_current_witness :
    (warc_init rot_ok (State.start cfg_rotating)).warc_current_wfile = some 0 ∧
    0 < (warc_init rot_ok (State.start cfg_rotating)).files.length ∧
    (warc_start_new_file store_rotating.rot (warc_init rot_ok (State.start cfg_rotating))).1
      = true ∧
    WFile_isFull store_rotating.is_full 0 (warc_init rot_ok (State.start cfg_rotating))
      = true ∧
    (warc_store_record rec_response store_rotating
        (warc_init rot_ok (State.start cfg_rotating))).2.1.warcInfoId
      = some "<urn:uuid:ffffffff-ffff-ffff-ffff-ffffffffffff>" ∧
    (warc_init rot_ok (State.start cfg_rotating)).warc_current_winfo_uuid_str
      = some "<urn:uuid:00000000-0000-0000-0000-000000000000>" :=
  ⟨by decide, by decide, by decide, by decide,
   ((C5_linkage_id_is_current (warc_init rot_ok (State.start cfg_rotating)) rec_response
      store_rotating 0 (by decide) (by decide) (Or.inr (by decide))).2.2.2 (by decide)).1.trans
      (by decide),
   by decide⟩

/-- C6, where the code breaks it: `warc_close` destroys the current file and leaves
`warc_current_wfile` pointing at it, so a following `warc_store_record` takes
the open-file branch, and a second `warc_close` destroys the same file a
second time. -/
theorem C6_close_keeps_pointer :
    (warc_close (warc_init rot_ok (State.start cfg_crawl))).warc_current_wfile = some 0 ∧
    (warc_store_record rec_response store_ok
      (warc_close (warc_init rot_ok (State.start cfg_crawl)))).1 = true ∧
    (run_calls (State.start cfg_crawl) [Call.init rot_ok, Call.close]).files.map
      WFile.destroyed = [1] ∧
    (run_calls (State.start cfg_crawl) [Call.init rot_ok, Call.close, Call.close]).files.map
      WFile.destroyed = [2] := by
  decide

/-- C8, where the code breaks it, the 100001st file: with max size 1000, after a successful
start and 100000 rotating stores the name `crawl-100000.warc.gz` has been
formatted for a file; `%05d` renders the serial 100000 with six digits, and
that name with its terminating NUL needs more than the
`strlen (base) + 1 + 5 + 8 + 1` bytes allocated for it. -/
theorem C8_six_digit_serial :
    cfg_rotating.warc_maxsize > 0 ∧
    "crawl-100000.warc.gz" ∈ filenames
      (store_all (warc_init rot_ok (State.start cfg_rotating))
        (List.replicate 100000 (rec_response, store_rotating))) ∧
    fmt_0d 5 100000 = "100000" ∧
    "crawl-100000.warc.gz".length + 1 > "crawl".length + 1 + 5 + 8 + 1 := by
  refine ⟨by decide, ?_, by decide, by decide⟩
  obtain ⟨g, hg, -, g2, -⟩ := rotating_run_file 100000 (by decide) (by decide)
  have e : new_filename "crawl" 1000 true ((100000 : Nat) : Int) = "crawl-100000.warc.gz" := by
    decide
  rw [e] at g2
  exact List.mem_map.2 ⟨g, hg, g2⟩

/-- C9: after a successful `warc_init` with max size 0, whatever the records,
the outcomes of the writes and the sizes reached in a sequence of
`warc_store_record` calls, no call rotates: exactly one file has been opened,
it is still the current one and was never destroyed, the serial counter is
still 0, and the name formatted for that file and held by the buffer passed to
`bless` is `base.warc` (`base.warc.gz` with compression).  The file was
blessed with max size 0, for which `WFile_isFull` never reports full. -/
theorem C9_unbounded_single_file (c : Config) (b : String) (o0 : RotateOutcome)
    (calls : List (WRecord × StoreOutcome)) (hb : c.warc_filename = some b)
    (hm : c.warc_maxsize = 0) (ho : o0.open_ok = true) (hi : o0.info_write_fails = false) :
    (store_all (warc_init o0 (State.start c)) calls).files.length = 1 ∧
    (store_all (warc_init o0 (State.start c)) calls).warc_current_wfile = some 0 ∧
    (store_all (warc_init o0 (State.start c)) calls).warc_current_file_number = 0 ∧
    filenames (store_all (warc_init o0 (State.start c)) calls)
      = [b ++ (if c.warc_compression_enabled then ".warc.gz" else ".warc")] ∧
    names (store_all (warc_init o0 (State.start c)) calls)
      = [some (b ++ (if c.warc_compression_enabled then ".warc.gz" else ".warc"))] ∧
    (store_all (warc_init o0 (State.start c)) calls).files.map WFile.destroyed = [0] := by
  obtain ⟨-, -, -, -, i4, i5, -, -⟩ := init_success c b o0 hb ho hi
  have hfiles := init_files c b o0 hb ho hi
  have hm0 : ¬ c.warc_maxsize > 0 := by omega
  obtain ⟨h1, h2, rs, h3⟩ := store_all_unbounded calls (warc_init o0 (State.start c)) _
    i4 hfiles (show ¬ 0 < c.warc_maxsize from hm0)
  refine ⟨by rw [h3]; rfl, h1, h2.trans i5, ?_, ?_, by rw [h3]; rfl⟩
  · unfold filenames
    rw [h3]
    exact congrArg (fun x => [x]) (new_filename_unbounded b _ _ _ hm0)
  · unfold names
    rw [h3]
    exact congrArg (fun x => [x]) (new_filename_buffer_unbounded b _ _ _ hm0)

/-- C9 at a concrete run: base `crawl`, max size 0, three stores, one of them
with the size threshold reported reached and one with a failing write. -/
theorem C9_unbounded_single_file_witness :
    cfg_crawl.warc_filename = some "crawl" ∧ cfg_crawl.warc_maxsize = 0 ∧
    rot_ok.open_ok = true ∧ rot_ok.info_write_fails = false ∧
    store_rotating.is_full = true ∧
    (store_all (warc_init rot_ok (State.start cfg_crawl))
      [(rec_response, store_ok), (rec_response, store_rotating),
       (rec_response, store_write_fails)]).files.length = 1 ∧
    filenames (store_all (warc_init rot_ok (State.start cfg_crawl))
      [(rec_response, store_ok), (rec_response, store_rotating),
       (rec_response, store_write_fails)])
      = ["crawl" ++ (if cfg_crawl.warc_compression_enabled then ".warc.gz" else ".warc")] ∧
    (record_lists (store_all (warc_init rot_ok (State.start cfg_crawl))
      [(rec_response, store_ok), (rec_response, store_rotating),
       (rec_response, store_write_fails)])).map List.length = [3] :=
  ⟨rfl, rfl, rfl, rfl, rfl,
   (C9_unbounded_single_file cfg_crawl "crawl" rot_ok
      [(rec_response, store_ok), (rec_response, store_rotating),
       (rec_response, store_write_fails)] rfl rfl rfl rfl).1,
   (C9_unbounded_single_file cfg_crawl "crawl" rot_ok
      [(rec_response, store_ok), (rec_response, store_rotating),
       (rec_response, store_write_fails)] rfl rfl rfl rfl).2.2.2.1,
   by decide⟩

/-- C10: when `WFile_storeRecord` fails in a `warc_store_record` call on a
current file that `WFile_isFull` reports not full, the call returns failure and leaves the writer
state as it was (current file, serial number, identifier and every file's
records); a following `warc_close`, which has no result to report an error
with, destroys that same file once and changes no other file. -/
theorem C10_write_failure_keeps_state (s : State) (record : WRecord) (o : StoreOutcome)
    (h : Nat) (hw : s.warc_current_wfile = some h)
    (hf : WFile_isFull o.is_full h s = false) (hfail : o.write_fails = true) :
    (warc_store_record record o s).1 = false ∧
    (warc_store_record record o s).2.2 = s ∧
    (warc_close (warc_store_record record o s).2.2).files
      = List.modify (fun f => { f with destroyed := f.destroyed + 1 }) h s.files ∧
    (warc_close (warc_store_record record o s).2.2).warc_current_file_number
      = s.warc_current_file_number := by
  have he : warc_store_record record o s
      = (false, warc_setWarcInfoId record s.warc_current_winfo_uuid_str, s) := by
    rw [store_not_full record o s h hw hf]
    simp [stamp_and_store, hw, hfail]
  rw [he]
  refine ⟨rfl, rfl, ?_, ?_⟩
  · simp only [warc_close, hw, destroy, free]
    cases s.warc_current_winfo_uuid_str <;> rfl
  · simp only [warc_close, hw, destroy, free]
    cases s.warc_current_winfo_uuid_str <;> rfl

/-- C10 at a concrete call: the write of a response record to the open file
`crawl.warc` fails; the state is kept and `warc_close` destroys file 0 once. -/
theorem C10_write_failure_keeps_state_witness :
    (warc_init rot_ok (State.start cfg_crawl)).warc_current_wfile = some 0 ∧
    WFile_isFull store_write_fails.is_full 0 (warc_init rot_ok (State.start cfg_crawl))
      = false ∧
    store_write_fails.write_fails = true ∧
    (warc_store_record rec_response store_write_fails
      (warc_init rot_ok (State.start cfg_crawl))).1 = false ∧
    (warc_close (warc_store_record rec_response store_write_fails
      (warc_init rot_ok (State.start cfg_crawl))).2.2).files.map WFile.destroyed = [1] :=
  ⟨by decide, by decide, rfl,
   (C10_write_failure_keeps_state (warc_init rot_ok (State.start cfg_crawl)) rec_response
      store_write_fails 0 (by decide) (by decide) rfl).1,
   by
    rw [(C10_write_failure_keeps_state (warc_init rot_ok (State.start cfg_crawl)) rec_response
      store_write_fails 0 (by decide) (by decide) rfl).2.2.1]
    decide⟩

/-- C11: for every record, `warc_store_record` called while
`warc_current_wfile` is `NULL` returns failure and changes nothing: the state
(files, current file, serial number, identifier) and the record are as they
were, so no file is opened, no rotation is made and nothing is stamped or
written. -/
theorem C11_store_without_open_file (s : State) (record : WRecord) (o : StoreOutcome)
    (hw : s.warc_current_wfile = none) :
    warc_store_record record o s = (false, record, s) ∧
    (warc_store_record record o s).1 = false ∧
    (warc_store_record record o s).2.1 = record ∧
    (warc_store_record record o s).2.2.files = s.files ∧
    (warc_store_record record o s).2.2.warc_current_wfile = none ∧
    (warc_store_record record o s).2.2.warc_current_file_number
      = s.warc_current_file_number ∧
    (warc_store_record record o s).2.2.warc_current_winfo_uuid_str
      = s.warc_current_winfo_uuid_str := by
  rw [store_no_file record o s hw]
  exact ⟨rfl, rfl, rfl, rfl, hw, rfl, rfl⟩

/-- C11 at a concrete call: a store before any `warc_init`, with outcomes that
would report the file full. -/
theorem C11_store_without_open_file_witness :
    (State.start cfg_rotating).warc_current_wfile = none ∧
    warc_store_record rec_response store_rotating (State.start cfg_rotating)
      = (false, rec_response, State.start cfg_rotating) :=
  ⟨rfl, (C11_store_without_open_file (State.start cfg_rotating) rec_response store_rotating
    rfl).1⟩

/-- C12: a `warc_store_record` call on a current file that `WFile_isFull`
reports full (a file with a positive max size whose size threshold is reached)
calls `warc_start_new_file` before anything else.  When the rotation succeeds, the
record is stamped and passed to the new file only: the records of all earlier
files, the full one included, are unchanged, and the new file holds its
warcinfo record followed, if the write succeeds, by the record.  When the
rotation fails, the call returns failure, the record is not even stamped and
it is appended to no file. -/
theorem C12_full_file_rotates_first (s : State) (record : WRecord) (o : StoreOutcome)
    (h : Nat) (hw : s.warc_current_wfile = some h)
    (hf : WFile_isFull o.is_full h s = true) :
    ((warc_start_new_file o.rot s).1 = true →
      (warc_store_record record o s).1 = !o.write_fails ∧
      (warc_store_record record o s).2.2.warc_current_wfile = some s.files.length ∧
      ∃ info : WRecord,
        info.recordType = some warc_rec_t.WARC_INFO_RECORD ∧
        info.recordId = (warc_store_record record o s).2.1.warcInfoId ∧
        record_lists (warc_store_record record o s).2.2 = record_lists s ++
          [info :: (if o.write_fails then [] else [(warc_store_record record o s).2.1])]) ∧
    ((warc_start_new_file o.rot s).1 = false →
      (warc_store_record record o s).1 = false ∧
      (warc_store_record record o s).2.1 = record ∧
      (record_lists (warc_store_record record o s).2.2 = record_lists s ∨
        record_lists (warc_store_record record o s).2.2 = record_lists s ++ [[]])) := by
  constructor
  · intro hok
    obtain ⟨hb0, ho, hi⟩ := (rotate_ok_iff o.rot s).1 hok
    obtain ⟨b, hb⟩ := Option.ne_none_iff_exists'.mp hb0
    rw [store_rotated_eq record o s b h hb hw hf ho hi]
    refine ⟨rfl, rfl, rotate_winfo s b o.rot, rfl, rfl, ?_⟩
    have hr := released_record_lists s
    unfold record_lists at *
    simp only [List.map_append, hr, List.map_cons, List.map_nil]
  · intro hfail
    rw [store_full record o s h hw hf, hfail]
    simp only [Bool.false_eq_true, if_false]
    refine ⟨trivial, trivial, ?_⟩
    cases hb : s.warc_filename with
    | none => rw [rotate_no_filename o.rot s hb]; exact Or.inl rfl
    | some b =>
      cases ho : o.rot.open_ok with
      | false =>
        rw [rotate_open_fails o.rot s b hb ho]
        exact Or.inl (released_record_lists s)
      | true =>
        have hi : o.rot.info_write_fails = true := by
          cases hi : o.rot.info_write_fails with
          | true => rfl
          | false =>
            have := (rotate_ok_iff o.rot s).2 ⟨by rw [hb]; simp, ho, hi⟩
            rw [hfail] at this
            exact absurd this (by simp)
        rw [rotate_open_ok o.rot s b hb ho]
        right
        have hr := released_record_lists s
        unfold record_lists at *
        simp only [List.map_append, hr, List.map_cons, List.map_nil, rotate_file, hi, if_true]

/-- C12 at a concrete call: the first file `crawl-00000.warc.gz` is reported
full; the record goes to the second file, after its warcinfo record. -/
theorem C12_full_file_rotates_first_witness :
    (warc_init rot_ok (State.start cfg_rotating)).warc_current_wfile = some 0 ∧
    WFile_isFull store_rotating.is_full 0 (warc_init rot_ok (State.start cfg_rotating))
      = true ∧
    (warc_start_new_file store_rotating.rot (warc_init rot_ok (State.start cfg_rotating))).1
      = true ∧
    (warc_store_record rec_response store_rotating
      (warc_init rot_ok (State.start cfg_rotating))).1 = true ∧
    (record_lists (warc_store_record rec_response store_rotating
      (warc_init rot_ok (State.start cfg_rotating))).2.2).map
        (fun l => l.map WRecord.recordType)
      = [[some warc_rec_t.WARC_INFO_RECORD],
         [some warc_rec_t.WARC_INFO_RECORD, some warc_rec_t.WARC_RESPONSE_RECORD]] :=
  ⟨by decide, by decide, by decide,
   ((C12_full_file_rotates_first (warc_init rot_ok (State.start cfg_rotating)) rec_response
      store_rotating 0 (by decide) (by decide)).1 (by decide)).1,
   by decide⟩

/-- C13 fails at every date of our era: the time stamp of 2011-01-02 03:04:05
UTC is `2011-01-02T03:04:05Z`, 20 characters long, not 21; and for a date in
the year 10000, whose expansion has 21 characters, the expansion with its NUL
does not fit the 21 bytes given to `strftime`, so no string is defined. -/
theorem C13_counterexample :
    warc_timestamp clock_2011 = some "2011-01-02T03:04:05Z" ∧
    "2011-01-02T03:04:05Z".length = 20 ∧
    strftime_format clock_10000 = "10000-01-02T03:04:05Z" ∧
    warc_timestamp clock_10000 = none := by
  decide

/-- C13, amended: for every UTC broken-down time with a four-digit year
(1000 to 9999), `warc_timestamp` produces the expansion of
`%Y-%m-%dT%H:%M:%SZ`, which is exactly 20 characters long (21 bytes with its
terminating NUL, the size of the buffer) and ends in `Z`. -/
theorem C13_timestamp_twenty_chars (t : tm) (hr : tm_in_range t)
    (hy0 : 1000 ≤ t.tm_year + 1900) (hy1 : t.tm_year + 1900 ≤ 9999) :
    warc_timestamp t = some (strftime_format t) ∧
    (strftime_format t).length = 20 ∧
    (strftime_format t).length + 1 = 21 ∧
    (strftime_format t).data.getLast? = some 'Z' := by
  have hl := strftime_format_length t hr hy0 hy1
  refine ⟨?_, hl, by omega, strftime_format_ends_in_Z t⟩
  unfold warc_timestamp strftime
  rw [if_pos (by omega)]

/-- C13, amended, at a concrete clock value: 2011-01-02 03:04:05 UTC. -/
theorem C13_timestamp_twenty_chars_witness :
    tm_in_range clock_2011 ∧ 1000 ≤ clock_2011.tm_year + 1900 ∧
    clock_2011.tm_year + 1900 ≤ 9999 ∧
    warc_timestamp clock_2011 = some (strftime_format clock_2011) ∧
    (strftime_format clock_2011).length = 20 :=
  ⟨by unfold tm_in_range; decide, by decide, by decide,
   (C13_timestamp_twenty_chars clock_2011 (by unfold tm_in_range; decide) (by decide)
      (by decide)).1,
   (C13_timestamp_twenty_chars clock_2011 (by unfold tm_in_range; decide) (by decide)
      (by decide)).2.1⟩

/-- C14: for every UUID of sixteen bytes, `warc_uuid_str` gives `<urn:uuid:`,
the textual form of the UUID and `>`; the textual form is five hexadecimal
groups of 8, 4, 4, 4 and 12 characters separated by hyphens, 36 characters in
all; the string is 47 characters long and with its terminating NUL fits the
48 bytes allocated for it. -/
theorem C14_uuid_str (u : uuid_t) :
    warc_uuid_str u = "<urn:uuid:" ++ uuid_unparse u ++ ">" ∧
    (∃ g1 g2 g3 g4 g5 : List (Fin 256),
      uuid_unparse u = String.mk (hex_bytes g1 ++ '-' :: hex_bytes g2 ++ '-' :: hex_bytes g3
        ++ '-' :: hex_bytes g4 ++ '-' :: hex_bytes g5) ∧
      g1 ++ (g2 ++ (g3 ++ (g4 ++ g5))) = u.val ∧
      (hex_bytes g1).length = 8 ∧ (hex_bytes g2).length = 4 ∧ (hex_bytes g3).length = 4 ∧
      (hex_bytes g4).length = 4 ∧ (hex_bytes g5).length = 12) ∧
    (uuid_unparse u).length = 36 ∧
    (warc_uuid_str u).length = 47 ∧
    (warc_uuid_str u).length + 1 ≤ winfo_uuid_str_malloc := by
  have hl := uuid_unparse_length u
  have h47 : (warc_uuid_str u).length = 47 := by
    unfold warc_uuid_str
    simp only [String.length_append, hl]
    rfl
  refine ⟨rfl, ?_, hl, h47, ?_⟩
  · have h := u.property
    refine ⟨u.val.take 4, (u.val.drop 4).take 2, (u.val.drop 6).take 2, (u.val.drop 8).take 2,
      u.val.drop 10, rfl, uuid_groups u.val, ?_, ?_, ?_, ?_, ?_⟩ <;>
    simp [hex_bytes_length, h]
  · rw [h47]
    decide

/-- C14 at a concrete UUID: sixteen bytes `0xff`. -/
theorem C14_uuid_str_witness :
    warc_uuid_str uuid_ones = "<urn:uuid:ffffffff-ffff-ffff-ffff-ffffffffffff>" ∧
    (warc_uuid_str uuid_ones).length = 47 :=
  ⟨(C14_uuid_str uuid_ones).1.trans (by decide), (C14_uuid_str uuid_ones).2.2.2.1⟩

/-- C15, where the code breaks it, a session argument string of 400
characters: `warc_init` succeeds and writes a warcinfo record of kind info with
the right content type, record id and file name, but the text of the body, 579
characters, does not fit the 400-byte buffer it is formatted into: `sprintf`
overruns the buffer and no body containing the argument string is defined. -/
theorem C15_long_arguments_overrun :
    cfg_long_args.program_argstring.length = 400 ∧
    (winfo_header_string cfg_long_args.version_string cfg_long_args.os_type
      cfg_long_args.use_robots cfg_long_args.program_argstring).length = 579 ∧
    record_lists (warc_init rot_ok (State.start cfg_long_args))
      = [[rotate_winfo { State.start cfg_long_args with warc_current_file_number := -1 }
            "crawl" rot_ok]] ∧
    (rotate_winfo { State.start cfg_long_args with warc_current_file_number := -1 }
      "crawl" rot_ok).recordType = some warc_rec_t.WARC_INFO_RECORD ∧
    (rotate_winfo { State.start cfg_long_args with warc_current_file_number := -1 }
      "crawl" rot_ok).filename = some "crawl.warc" ∧
    (rotate_winfo { State.start cfg_long_args with warc_current_file_number := -1 }
      "crawl" rot_ok).content = none := by
  have hlen : cfg_long_args.program_argstring.length = 400 := by
    show (List.replicate 400 'a').length = 400
    exact List.length_replicate _ _
  have hv : cfg_long_args.version_string.length = 4 := rfl
  have hos : cfg_long_args.os_type.length = 9 := rfl
  have hr : cfg_long_args.use_robots = true := rfl
  have hl := winfo_header_string_length cfg_long_args.version_string cfg_long_args.os_type
    cfg_long_args.use_robots cfg_long_args.program_argstring
  rw [hlen, hv, hos, hr] at hl
  have hf := rotate_winfo_fields
    { State.start cfg_long_args with warc_current_file_number := -1 } "crawl" rot_ok
  refine ⟨hlen, hl, ?_, hf.1, ?_, ?_⟩
  · obtain ⟨he, -⟩ := init_success cfg_long_args "crawl" rot_ok rfl rfl rfl
    rw [he]
    exact (rotate_writes_winfo rot_ok _ "crawl" rfl rfl rfl).2.2.2
  · rw [hf.2.2.2.2.1]
    decide
  · apply init_winfo_overrun
    rw [hlen, hv, hos, hr]
    decide

/-- C16, where the code breaks it, every call with a temp directory: with
`opt.warc_tempdir` set to `/tmp`, the template `/tmp/.wget_warc_XXXXXX` with
its terminating NUL needs 23 bytes and the buffer reserved for it has 22, so
`sprintf` overruns the buffer before `mkstemp` is reached and the result of
`warc_tempfile` is undefined, also when `mkstemp`, `unlink` and `fdopen` would
all succeed; that is so for every directory and every outcome.  With the
directory unset the function returns `NULL`, and from a template that is in
its buffer the lines after the `sprintf` behave as the claim says
(`tempfile_from_template_handle`): here they return the stream on descriptor 5
and leave no entry for the file created. -/
theorem C16_tempfile_overruns :
    state_tmp.warc_tempdir = some "/tmp" ∧
    tempfile_template "/tmp" = "/tmp/.wget_warc_XXXXXX" ∧
    "/tmp/.wget_warc_XXXXXX".length + 1 = 23 ∧
    tempfile_alloca "/tmp" = 22 ∧
    tempfile_buffer "/tmp" = none ∧
    warc_tempfile temp_ok state_tmp fs_tmp = none ∧
    (∀ (o : TempOutcome) (d : String) (fs : FileSystem),
      warc_tempfile o { state_tmp with warc_tempdir := some d } fs = none) ∧
    warc_tempfile temp_ok { state_tmp with warc_tempdir := none } fs_tmp
      = some (none, fs_tmp) ∧
    tempfile_from_template temp_ok "/tmp/.wget_warc_XXXXXX" fs_tmp
      = (some 5, { entries := ["/tmp/other"] }) := by
  refine ⟨rfl, by decide, by decide, by decide, by decide, by decide, ?_, by decide,
    by decide⟩
  intro o d fs
  simp only [warc_tempfile, tempfile_buffer_none]

/-- C17, where the code breaks it, every directory: the template
`d/.wget_warc_XXXXXX` has `strlen (d) + 18` characters, so with its
terminating NUL it needs one byte more than the `strlen (d) + 18` bytes
allocated for it. -/
theorem C17_template_overruns (d : String) :
    (tempfile_template d).length = d.length + 18 ∧
    (tempfile_template d).length + 1 = tempfile_alloca d + 1 ∧
    ¬ ((tempfile_template d).length + 1 ≤ tempfile_alloca d) := by
  have h : (tempfile_template d).length = d.length + 18 := by
    unfold tempfile_template
    rw [String.length_append]
    rfl
  unfold tempfile_alloca
  refine ⟨h, by omega, by omega⟩

/-- C18: the text of the warcinfo body has 159 characters besides the version,
the OS type, the robots mode (`classic`, 7 characters, or `off`, 3) and the
arguments; with its terminating NUL it fits the 400-byte buffer exactly when
that length is at most 399, and only then is the content defined. -/
theorem C18_body_length (version os : String) (robots : Bool) (args : String) :
    (winfo_header_string version os robots args).length
      = 159 + version.length + os.length + (if robots then 7 else 3) + args.length ∧
    (if robots then "classic" else "off").length = (if robots then 7 else 3) ∧
    ((winfo_header_string version os robots args).length + 1 ≤ 400 ↔
      159 + version.length + os.length + (if robots then 7 else 3) + args.length ≤ 399) ∧
    (winfo_header_buffer version os robots args
        = some (winfo_header_string version os robots args) ↔
      159 + version.length + os.length + (if robots then 7 else 3) + args.length ≤ 399) := by
  have hl := winfo_header_string_length version os robots args
  exact ⟨hl, by cases robots <;> rfl, by omega,
    winfo_header_buffer_some_iff version os robots args⟩

/-- C18 at a concrete session: version `1.13`, OS `linux-gnu`, robots on. -/
theorem C18_body_length_witness :
    (winfo_header_string "1.13" "linux-gnu" true "-r http://example.org/").length
      = 159 + 4 + 9 + 7 + 22 :=
  (C18_body_length "1.13" "linux-gnu" true "-r http://example.org/").1

/-- C19: for every base path, compression flag and max size, and every serial
number from 0 to 99999, the file name with its terminating NUL fits the
`strlen (base) + 1 + 5 + 8 + 1` bytes allocated for it. -/
theorem C19_filename_fits (b : String) (c : Bool) (m : Int) (n : Int)
    (h0 : 0 ≤ n) (h1 : n ≤ 99999) :
    (new_filename b m c n).length + 1 ≤ new_filename_alloca b ∧
    new_filename_alloca b = b.length + 1 + 5 + 8 + 1 :=
  ⟨new_filename_length_le b c m n h0 h1, rfl⟩

/-- C19 at concrete inputs: base `crawl`, compression on, max size 1000, the
serial 99999, where the name fills the allocation exactly. -/
theorem C19_filename_fits_witness :
    (0 : Int) ≤ 99999 ∧ (99999 : Int) ≤ 99999 ∧
    new_filename "crawl" 1000 true 99999 = "crawl-99999.warc.gz" ∧
    (new_filename "crawl" 1000 true 99999).length + 1 ≤ new_filename_alloca "crawl" :=
  ⟨by decide, by decide, by decide,
   (C19_filename_fits "crawl" true 1000 99999 (by decide) (by decide)).1⟩

end WgetWarc
